import Mathlib

/-!
# HairLytic front end: session, history visibility and detection workflow

A shallow embedding of the state handled by `App.jsx`, `DetectionCamera.jsx` and
`services/predictionHistory.js`.  React state is an explicit record, every handler is a
function on that record, and the browser facilities the handlers call (local storage,
object URLs, `alert`, the network) are explicit logs carried in the same record.
-/

namespace HairLytic

/-! ## JavaScript values -/

/-- The JavaScript values that can reach the session fields: the primitives, and objects
(arrays included).  An integer-valued number and an object carry the string their `ToString`
conversion yields (for a number the decimal digits, or the exponent form from `1e+21` on). -/
inductive JsVal where
  | undefined
  | null
  | bool (b : Bool)
  | num (n : Int) (repr : String)
  | str (s : String)
  | obj (repr : String)
  deriving DecidableEq, Repr

/-- JavaScript `ToBoolean`, the test behind `!v`, `v || w`, `v && w` and `if (v)`. -/
def JsVal.truthy : JsVal → Bool
  | .undefined => false
  | .null => false
  | .bool b => b
  | .num n _ => n != 0
  | .str s => s != ""
  | .obj _ => true

/-- JavaScript `ToString`, applied by `localStorage.setItem` to the value it stores. -/
def JsVal.toStr : JsVal → String
  | .undefined => "undefined"
  | .null => "null"
  | .bool b => if b then "true" else "false"
  | .num _ r => r
  | .str s => s
  | .obj r => r

/-- The expression `a || b`. -/
def JsVal.or (a b : JsVal) : JsVal := if a.truthy then a else b

/-- A string or `null`, as returned by `localStorage.getItem` and `URLSearchParams.get`. -/
def ofNullable : Option String → JsVal
  | none => .null
  | some s => .str s

/-- Truthiness of a nullable string such as `previewUrl`: non-null and non-empty. -/
def truthyStr : Option String → Bool
  | none => false
  | some s => s != ""

/-! ## Local storage -/

/-- The `localStorage` area: key/value pairs in insertion order. -/
abbrev Storage := List (String × String)

/-- `localStorage.getItem(key)`: the stored string, or `null` (here `none`). -/
def Storage.getItem (st : Storage) (key : String) : Option String :=
  match st with
  | [] => none
  | (k, v) :: rest => if k = key then some v else Storage.getItem rest key

/-- `localStorage.setItem(key, value)`: replaces the value of an existing key in place,
appends a new key otherwise. -/
def Storage.setItem (st : Storage) (key value : String) : Storage :=
  match st with
  | [] => [(key, value)]
  | (k, v) :: rest =>
    if k = key then (key, value) :: rest else (k, v) :: Storage.setItem rest key value

/-- `localStorage.clear()`. -/
def Storage.clear (_ : Storage) : Storage := []

/-! ## JSON text of an array of strings

`handleHideHistory` stores `JSON.stringify(newDeleted)` and `App` reads it back with
`JSON.parse`.  Both are modelled on arrays of strings, following ECMA-262
(`SerializeJSONArray`, `QuoteJSONString`) and the JSON grammar.  Strings are sequences of
Unicode scalar values, so the lone-surrogate branch of `QuoteJSONString` cannot arise. -/

/-- One lowercase hexadecimal digit. -/
def hexDigit (n : Nat) : Char :=
  if n < 10 then Char.ofNat (48 + n) else Char.ofNat (87 + n)

/-- `UnicodeEscape(C)`: backslash, `u`, and four lowercase hexadecimal digits. -/
def UnicodeEscape (c : Char) : List Char :=
  [Char.ofNat 92, Char.ofNat 117, hexDigit (c.toNat / 4096 % 16), hexDigit (c.toNat / 256 % 16),
    hexDigit (c.toNat / 16 % 16), hexDigit (c.toNat % 16)]

/-- The text `QuoteJSONString` emits for one code point: the two-character escapes of
backspace, tab, line feed, form feed, carriage return, the double quote and the backslash,
a `UnicodeEscape` for the remaining control characters, and the character itself otherwise. -/
def QuoteJSONChar (c : Char) : List Char :=
  if c.toNat = 8 then [Char.ofNat 92, Char.ofNat 98]
  else if c.toNat = 9 then [Char.ofNat 92, Char.ofNat 116]
  else if c.toNat = 10 then [Char.ofNat 92, Char.ofNat 110]
  else if c.toNat = 12 then [Char.ofNat 92, Char.ofNat 102]
  else if c.toNat = 13 then [Char.ofNat 92, Char.ofNat 114]
  else if c.toNat = 34 then [Char.ofNat 92, Char.ofNat 34]
  else if c.toNat = 92 then [Char.ofNat 92, Char.ofNat 92]
  else if c.toNat < 32 then UnicodeEscape c
  else [c]

/-- The escaped body of a string, without the surrounding quotes. -/
def quoteChars : List Char → List Char
  | [] => []
  | c :: cs => QuoteJSONChar c ++ quoteChars cs

/-- `QuoteJSONString(value)`. -/
def QuoteJSONString (s : List Char) : List Char :=
  Char.ofNat 34 :: (quoteChars s ++ [Char.ofNat 34])

/-- The elements of an array, each quoted, separated by commas (no gap is in use). -/
def joinElems : List (List Char) → List Char
  | [] => []
  | [s] => QuoteJSONString s
  | s :: t :: rest => QuoteJSONString s ++ Char.ofNat 44 :: joinElems (t :: rest)

/-- `SerializeJSONArray` on an array of strings: `[` elements `]`. -/
def stringifyChars (l : List (List Char)) : List Char :=
  Char.ofNat 91 :: (joinElems l ++ [Char.ofNat 93])

/-- `JSON.stringify(value)` for an array of strings. -/
def JSON_stringify (l : List String) : String :=
  String.mk (stringifyChars (l.map String.data))

/-- The value of a hexadecimal digit of either case. -/
def hexVal (c : Char) : Option Nat :=
  if 48 ≤ c.toNat ∧ c.toNat ≤ 57 then some (c.toNat - 48)
  else if 97 ≤ c.toNat ∧ c.toNat ≤ 102 then some (c.toNat - 87)
  else if 65 ≤ c.toNat ∧ c.toNat ≤ 70 then some (c.toNat - 55)
  else none

/-- The code point written by the four hexadecimal digits of a unicode escape. -/
def hex4 (a b c d : Char) : Option Nat :=
  match hexVal a, hexVal b, hexVal c, hexVal d with
  | some x, some y, some z, some w => some (x * 4096 + y * 256 + z * 16 + w)
  | _, _, _, _ => none

/-- The character a two-character escape stands for (the grammar's single escape
characters: quote, backslash, slash, `b`, `f`, `n`, `r`, `t`). -/
def unescape (e : Char) : Option Char :=
  if e.toNat = 34 then some (Char.ofNat 34)
  else if e.toNat = 92 then some (Char.ofNat 92)
  else if e.toNat = 47 then some (Char.ofNat 47)
  else if e.toNat = 98 then some (Char.ofNat 8)
  else if e.toNat = 102 then some (Char.ofNat 12)
  else if e.toNat = 110 then some (Char.ofNat 10)
  else if e.toNat = 114 then some (Char.ofNat 13)
  else if e.toNat = 116 then some (Char.ofNat 9)
  else none

/-- Reads a JSON string body up to its closing quote; returns what the body denotes, as
numbers, and the rest of the input: the code point of a character written as such or by a
two-character escape, and the 16-bit code unit written by a unicode escape.  `none` stands
for a `SyntaxError` (an unterminated string, a raw control character, a bad escape). -/
def parseStringBody : List Char → Option (List Nat × List Char)
  | [] => none
  | c :: rest =>
    if c.toNat = 34 then some ([], rest)
    else if c.toNat = 92 then
      match rest with
      | [] => none
      | e :: rest1 =>
        if e.toNat = 117 then
          match rest1 with
          | a :: b :: x :: d :: rest2 =>
            match hex4 a b x d with
            | some n => (parseStringBody rest2).map (fun r => (n :: r.1, r.2))
            | none => none
          | _ => none
        else
          match unescape e with
          | some ch => (parseStringBody rest1).map (fun r => (ch.toNat :: r.1, r.2))
          | none => none
    else if c.toNat < 32 then none
    else (parseStringBody rest).map (fun r => (c.toNat :: r.1, r.2))

/-- The characters of a string given by `parseStringBody`: a high surrogate followed by a
low surrogate is the one character of that pair, any other number that is not a surrogate is
the character of that code point.  `none` stands for a string outside the model, one that
holds a surrogate that is not part of a pair. -/
def decodeUnits : List Nat → Option (List Char)
  | [] => some []
  | [n] => if 55296 ≤ n ∧ n ≤ 57343 then none else some [Char.ofNat n]
  | n :: m :: rest =>
    if 55296 ≤ n ∧ n ≤ 56319 then
      if 56320 ≤ m ∧ m ≤ 57343 then
        (decodeUnits rest).map
          (fun r => Char.ofNat (65536 + (n - 55296) * 1024 + (m - 56320)) :: r)
      else none
    else if 56320 ≤ n ∧ n ≤ 57343 then none
    else (decodeUnits (m :: rest)).map (fun r => Char.ofNat n :: r)

/-- Skips JSON white space: space, tab, line feed, carriage return. -/
def skipWs : List Char → List Char
  | [] => []
  | c :: rest =>
    if c.toNat = 32 ∨ c.toNat = 9 ∨ c.toNat = 10 ∨ c.toNat = 13 then skipWs rest else c :: rest

/-- Reads a JSON string: an opening quote, then the body. -/
def parseString : List Char → Option (List Char × List Char)
  | [] => none
  | c :: rest =>
    if c.toNat = 34 then
      match parseStringBody rest with
      | some (units, rest1) => (decodeUnits units).map (fun str => (str, rest1))
      | none => none
    else none

/-- Reads the elements that follow the first one: each step expects `,` and a string, or the
closing bracket.  The first argument bounds the number of steps. -/
def parseTail : Nat → List Char → Option (List (List Char) × List Char)
  | 0, _ => none
  | fuel + 1, input =>
    match skipWs input with
    | [] => none
    | c :: rest =>
      if c.toNat = 93 then some ([], rest)
      else if c.toNat = 44 then
        match parseString (skipWs rest) with
        | some (s, rest1) => (parseTail fuel rest1).map (fun r => (s :: r.1, r.2))
        | none => none
      else none

/-- Reads a JSON array of strings, returning the strings and the rest of the input. -/
def parseArray (fuel : Nat) (input : List Char) : Option (List (List Char) × List Char) :=
  match skipWs input with
  | [] => none
  | c :: rest =>
    if c.toNat = 91 then
      match skipWs rest with
      | [] => none
      | d :: rest1 =>
        if d.toNat = 93 then some ([], rest1)
        else
          match parseString (d :: rest1) with
          | some (s, rest2) => (parseTail fuel rest2).map (fun r => (s :: r.1, r.2))
          | none => none
    else none

/-- `JSON.parse(text)` on the texts that denote an array of strings.  `none` stands for every
other outcome: a `SyntaxError`, a value that is not an array of strings, or an array with a
string that holds a lone surrogate.  Every step of
`parseTail` consumes a character, so the length of the text is fuel enough. -/
def JSON_parse (text : String) : Option (List String) :=
  match parseArray text.data.length text.data with
  | some (l, rest) => if skipWs rest = [] then some (l.map String.mk) else none
  | none => none

/-! ## Data model -/

/-- A `File` object: a user-selected file or a captured still. -/
structure File where
  name : String
  type : String
  deriving DecidableEq, Repr

/-- One detection of a prediction. -/
structure Detection where
  class_name : String
  confidence : ℚ
  deriving DecidableEq, Repr

/-- The body of a successful `/predict` response, as the results view reads it. -/
structure PredictionResult where
  status : String
  diagnosis : Option String
  reason : Option String
  message : Option String
  detections : Option (List Detection)
  annotated_image : Option String
  deriving DecidableEq, Repr

/-- One entry of the `/history` response. -/
structure HistoryEntry where
  _id : String
  filename : String
  image_filename : Option String
  username : Option String
  timestamp : String
  status : String
  diagnosis : Option String
  message : Option String
  detections : Option (List Detection)
  deriving DecidableEq, Repr

/-- A `MediaStream` returned by `getUserMedia`, with its tracks. -/
structure MediaStream where
  id : Nat
  tracks : List Nat
  deriving DecidableEq, Repr

/-- A request sent to the backend. -/
inductive Request where
  | auth (type : String) (params : List (String × String))
  | history (token : JsVal)
  | predict (conf : Nat) (token : JsVal) (file : File)
  | upload (apiBase : String) (username : JsVal) (image_filename : String) (token : JsVal)
  deriving DecidableEq, Repr

/-- The React state of `App` (its `useState` cells), and the values its `[token]` effect
captured when it last ran, which the effect's cleanup reads.  The confidence threshold `conf`
is counted in hundredths: it starts at `0.25` and the slider moves it from `0.1` to `1.0` in
steps of `0.05`. -/
structure AppState where
  token : JsVal
  username : JsVal
  authTab : String
  history : List HistoryEntry
  selectedFile : Option File
  previewUrl : Option String
  conf : Nat
  loading : Bool
  results : Option PredictionResult
  selectedHistoryItem : Option HistoryEntry
  deletedIds : List String
  historyImageUrl : Option String
  historyImageError : Option String
  historyImageLoading : Bool
  inputMode : String
  effectPreviewUrl : Option String
  effectHistoryImageUrl : Option String
  deriving DecidableEq, Repr

/-- The React state of `DetectionCamera`. -/
structure CameraState where
  cameraActive : Bool
  cameraStream : Option MediaStream
  showCameraPreview : Bool
  deriving DecidableEq, Repr

/-- What the handlers do to the browser: local storage, the object URLs created and released,
the alerts shown, the backend requests sent, the device requests made and the tracks stopped,
each in order. -/
structure Browser where
  localStorage : Storage
  created : List String
  revoked : List String
  alerts : List JsVal
  requests : List Request
  mediaRequests : Nat
  stoppedTracks : List Nat
  deriving DecidableEq, Repr

/-- The whole of the running page: both components, the browser, the number of the mounted
`DetectionCamera` instance, and the asynchronous operations still outstanding.  A pending
prediction carries the `token` its closure captured, a pending device request the instance
that made it, a pending `toBlob` callback the instance and the `previewUrl` its closure
captured; pending history loads and history image fetches are counted. -/
structure World where
  app : AppState
  cam : CameraState
  env : Browser
  mount : Nat
  pendingPredicts : List JsVal
  pendingHistory : Nat
  pendingMedia : List Nat
  pendingBlobs : List (Nat × Option String)
  pendingImages : Nat
  deriving DecidableEq, Repr

/-- The constant `API_BASE`. -/
def API_BASE : String := "/api"

/-- The error an `axios` call rejects with, reduced to what `err.response?.data?.detail`
reads: `none` when there is no response, `some none` when the response has no data, and
`some (some d)` when `data.detail` evaluates to `d` (`undefined` when the property is
missing). -/
structure AxiosError where
  response : Option (Option JsVal)
  deriving DecidableEq, Repr

/-- The expression `err.response?.data?.detail`. -/
def AxiosError.detail (err : AxiosError) : JsVal :=
  match err.response with
  | none => .undefined
  | some none => .undefined
  | some (some d) => d

/-- The outcome of `axios.post` in `handleAuth`: a response, of which `data.access_token`
is read (`none` when `data` is `null` or `undefined`, so that reading the property throws a
`TypeError`), or a rejection. -/
inductive AuthOutcome where
  | ok (access_token : Option JsVal)
  | error (err : AxiosError)
  deriving DecidableEq, Repr

/-- The outcome of `axios.post` in `handlePredict`: the response body, or a rejection. -/
inductive PredictOutcome where
  | ok (data : Option PredictionResult)
  | error (err : AxiosError)
  deriving DecidableEq, Repr

/-! ## Browser calls -/

/-- The call `alert(message)`. -/
def alert (message : JsVal) (w : World) : World :=
  { w with env := { w.env with alerts := w.env.alerts ++ [message] } }

/-- The statement `if (url) URL.revokeObjectURL(url)`. -/
def revokeIfSet (url : Option String) (w : World) : World :=
  match url with
  | some u =>
    if u != "" then { w with env := { w.env with revoked := w.env.revoked ++ [u] } } else w
  | none => w

/-- The call `URL.createObjectURL(file)`, of which `url` is the result. -/
def createObjectURL (url : String) (w : World) : World :=
  { w with env := { w.env with created := w.env.created ++ [url] } }

/-- `String.prototype.startsWith`. -/
def startsWith (s searchString : String) : Bool :=
  searchString.data.isPrefixOf s.data

/-- `URLSearchParams.get(name)`: the first value of the name, or `null`. -/
def paramsGet (params : List (String × String)) (name : String) : JsVal :=
  match params with
  | [] => .null
  | (k, v) :: rest => if k = name then .str v else paramsGet rest name

/-! ## `services/predictionHistory.js` -/

/-- The setter `setDeletedIds` of `App`. -/
def setDeletedIds (ids : List String) (w : World) : World :=
  { w with app := { w.app with deletedIds := ids } }

/-- `handleHideHistory(id, deletedIds, setDeletedIds)`. -/
def handleHideHistory (id : String) (deletedIds : List String)
    (setDeletedIds : List String → World → World) (w : World) : World :=
  let newDeleted := deletedIds ++ [id]
  let w1 := setDeletedIds newDeleted w
  { w1 with env := { w1.env with
      localStorage :=
        w1.env.localStorage.setItem "deleted_history_ids" (JSON_stringify newDeleted) } }

/-! ## `App.jsx` -/

/-- The initial value of `deletedIds`: `saved ? JSON.parse(saved) : []`.  `none` when
`JSON.parse` does not yield an array of strings. -/
def initialDeletedIds (ls : Storage) : Option (List String) :=
  match ls.getItem "deleted_history_ids" with
  | none => some []
  | some saved => if saved != "" then JSON_parse saved else some []

/-- The history the page displays:
`history.filter(item => !deletedIds.includes(item._id))`. -/
def displayedHistory (history : List HistoryEntry) (deletedIds : List String) :
    List HistoryEntry :=
  history.filter (fun item => !deletedIds.contains item._id)

/-- The visibility test of one entry: `!deletedIds.includes(item._id)`. -/
def isVisible (deletedIds : List String) (item : HistoryEntry) : Bool :=
  !deletedIds.contains item._id

/-- `handleHideHistoryItem(id)`. -/
def handleHideHistoryItem (id : String) (w : World) : World :=
  handleHideHistory id w.app.deletedIds setDeletedIds w

/-- `loadHistoryData()`, up to the `await`: the request `GET /history` leaves with the
`token` of the closure. -/
def loadHistoryData (token : JsVal) (w : World) : World :=
  { w with
    env := { w.env with requests := w.env.requests ++ [Request.history token] }
    pendingHistory := w.pendingHistory + 1 }

/-- `handleLogout()`. -/
def handleLogout (w : World) : World :=
  let w1 := { w with env := { w.env with localStorage := w.env.localStorage.clear } }
  let w2 := { w1 with app := { w1.app with
      token := .null, username := .null, results := none, selectedFile := none } }
  let w3 := revokeIfSet w.app.previewUrl w2
  { w3 with app := { w3.app with previewUrl := none } }

/-- `handleAuth(e, type)`, with the form fields `params` and the outcome of the request. -/
def handleAuth (type : String) (params : List (String × String)) (outcome : AuthOutcome)
    (w : World) : World :=
  let w1 :=
    { w with env := { w.env with requests := w.env.requests ++ [Request.auth type params] } }
  match outcome with
  | .ok data =>
    if type = "login" then
      match data with
      | some access_token =>
        let ls1 := w1.env.localStorage.setItem "access_token" access_token.toStr
        let ls2 := ls1.setItem "username" (paramsGet params "username").toStr
        { w1 with
          env := { w1.env with localStorage := ls2 }
          app := { w1.app with token := access_token, username := paramsGet params "username" } }
      | none => alert (.str "Authentication failed") w1
    else
      let w2 := alert (.str "Registration successful! Please login.") w1
      { w2 with app := { w2.app with authTab := "login" } }
  | .error err => alert (err.detail.or (.str "Authentication failed")) w1

/-- `resetDetection()` of `App`, passed to `DetectionCamera` as `onReset`. -/
def resetDetection (w : World) : World :=
  { w with app := { w.app with results := none } }

/-- `handlePredict()`, up to the `await`. -/
def handlePredict (w : World) : World :=
  match w.app.selectedFile with
  | none => w
  | some file =>
    { w with
      app := { w.app with loading := true }
      env := { w.env with
        requests := w.env.requests ++ [Request.predict w.app.conf w.app.token file] }
      pendingPredicts := w.pendingPredicts ++ [w.app.token] }

/-- `handlePredict()`, from the `await` on, with the `token` its closure captured (the
scroll it schedules on success changes no state). -/
def handlePredictResume (token : JsVal) (outcome : PredictOutcome) (w : World) : World :=
  let w1 :=
    match outcome with
    | .ok data => loadHistoryData token { w with app := { w.app with results := data } }
    | .error err => alert (err.detail.or (.str "Prediction failed")) w
  { w1 with app := { w1.app with loading := false } }

/-- `fetchHistoryImage(item, username, token, apiBase)`, up to the request: the error it
throws when the item has no `image_filename`, or the request it sends. -/
def fetchHistoryImage (item : HistoryEntry) (username token : JsVal) (apiBase : String) :
    Except String Request :=
  if truthyStr item.image_filename then
    .ok (Request.upload apiBase ((ofNullable item.username).or username)
      (item.image_filename.getD "") token)
  else .error "Image reference missing for this prediction"

/-- `fetchHistoryImageData(item)`, up to the `await` of the request, or to its end when
`fetchHistoryImage` throws before sending one. -/
def fetchHistoryImageData (item : HistoryEntry) (w : World) : World :=
  let w1 :=
    { w with app := { w.app with historyImageLoading := true, historyImageError := none } }
  match fetchHistoryImage item w.app.username w.app.token API_BASE with
  | .ok req =>
    { w1 with
      env := { w1.env with requests := w1.env.requests ++ [req] }
      pendingImages := w1.pendingImages + 1 }
  | .error msg =>
    { w1 with app := { w1.app with historyImageError := some msg, historyImageLoading := false } }

/-- `fetchHistoryImageData(item)`, from the `await` on: the object URL `fetchHistoryImage`
creates for the image it received, or the failure of the request. -/
def fetchHistoryImageResume (outcome : Option String) (w : World) : World :=
  match outcome with
  | some url =>
    let w1 := createObjectURL url w
    { w1 with app := { w1.app with historyImageUrl := some url, historyImageLoading := false } }
  | none =>
    { w with app := { w.app with
        historyImageError := some "Unable to retrieve image from server",
        historyImageLoading := false } }

/-- The effect on `[selectedHistoryItem]`, run after the item changed. -/
def selectedHistoryItemEffect (w : World) : World :=
  match w.app.selectedHistoryItem with
  | some item => fetchHistoryImageData item w
  | none =>
    let w1 := revokeIfSet w.app.historyImageUrl w
    { w1 with app := { w1.app with historyImageUrl := none, historyImageError := none } }

/-- The effect on `[token]`, run after the token changed: the cleanup of the previous run
releases the URLs that run captured, then the effect captures the current ones and loads the
history when a token is set. -/
def tokenEffect (w : World) : World :=
  let w1 := revokeIfSet w.app.effectPreviewUrl w
  let w2 := revokeIfSet w.app.effectHistoryImageUrl w1
  let w3 := { w2 with app := { w2.app with
      effectPreviewUrl := w.app.previewUrl, effectHistoryImageUrl := w.app.historyImageUrl } }
  if w.app.token.truthy then loadHistoryData w.app.token w3 else w3

/-! ## `components/DetectionCamera.jsx` -/

/-- The initial state of `DetectionCamera`. -/
def CameraState.initial : CameraState :=
  { cameraActive := false, cameraStream := none, showCameraPreview := true }

/-- `startCamera()`, up to the `await`; `cameraActive` and `cameraStream` are those of the
current render. -/
def startCamera (w : World) : World :=
  if w.cam.cameraActive && w.cam.cameraStream.isSome then
    resetDetection { w with
      cam := { w.cam with showCameraPreview := true }
      app := { w.app with selectedFile := none } }
  else
    { w with
      env := { w.env with mediaRequests := w.env.mediaRequests + 1 }
      pendingMedia := w.pendingMedia ++ [w.mount] }

/-- `startCamera()`, from the `await` on, for the instance `inst` that made the request: the
stream granted, or the refusal.  The setters of `DetectionCamera` act only while that instance
is the mounted one; the setters of `App` always act. -/
def startCameraResume (inst : Nat) (outcome : Option MediaStream) (w : World) : World :=
  match outcome with
  | some stream =>
    let w1 :=
      if inst = w.mount ∧ w.app.token.truthy then
        { w with cam := { cameraStream := some stream, cameraActive := true,
                          showCameraPreview := true } }
      else w
    resetDetection { w1 with app := { w1.app with selectedFile := none } }
  | none => alert (.str "Could not access camera. Please check permissions.") w

/-- `stopCamera()`, for the `cameraStream` of the closure it runs in. -/
def stopCamera (cameraStream : Option MediaStream) (w : World) : World :=
  let w1 :=
    match cameraStream with
    | some stream =>
      { w with
        env := { w.env with stoppedTracks := w.env.stoppedTracks ++ stream.tracks }
        cam := { w.cam with cameraStream := none } }
    | none => w
  { w1 with cam := { w1.cam with cameraActive := false, showCameraPreview := false } }

/-- `capturePhoto()`, up to the call of `canvas.toBlob`; the video and the canvas exist
whenever the snapshot button is shown. -/
def capturePhoto (w : World) : World :=
  { w with pendingBlobs := w.pendingBlobs ++ [(w.mount, w.app.previewUrl)] }

/-- The callback `capturePhoto` gave to `canvas.toBlob`, for the instance `inst` and the
`previewUrl` its closure captured; `file` is the snapshot and `url` the object URL created
for it. -/
def capturePhotoResume (inst : Nat) (previewUrl : Option String) (file : File) (url : String)
    (w : World) : World :=
  let w1 := createObjectURL url (revokeIfSet previewUrl w)
  let w2 := { w1 with app := { w1.app with previewUrl := some url, selectedFile := some file } }
  if inst = w.mount ∧ w.app.token.truthy then
    { w2 with cam := { w2.cam with showCameraPreview := false } }
  else w2

/-- `resetDetection()` of `DetectionCamera` (no control of the view calls it). -/
def DetectionCamera.resetDetection (w : World) : World :=
  let w1 :=
    if w.app.inputMode = "camera" then
      { w with
        cam := { w.cam with showCameraPreview := true }
        app := { w.app with selectedFile := none } }
    else { w with app := { w.app with selectedFile := none } }
  HairLytic.resetDetection w1

/-- `onFileChange(e)`: `file` is `e.target.files[0]`, `url` the object URL the browser
creates for it. -/
def onFileChange (file : Option File) (url : String) (w : World) : World :=
  match file with
  | some f =>
    if startsWith f.type "image/" then
      let w1 := createObjectURL url (revokeIfSet w.app.previewUrl w)
      resetDetection
        { w1 with app := { w1.app with previewUrl := some url, selectedFile := some f } }
    else alert (.str "Please select a valid image file") w
  | none => alert (.str "Please select a valid image file") w

/-- `handleModeSwitch(mode)`. -/
def handleModeSwitch (mode : String) (w : World) : World :=
  let w1 := { w with app := { w.app with inputMode := mode } }
  if mode = "upload" then
    let w2 := resetDetection (stopCamera w.cam.cameraStream w1)
    { w2 with app := { w2.app with selectedFile := none } }
  else startCamera w1

/-- The `disabled` attribute of the submit button:
`!selectedFile || loading || showCameraPreview`. -/
def submitDisabled (selectedFile : Option File) (loading showCameraPreview : Bool) : Bool :=
  !selectedFile.isSome || loading || showCameraPreview

/-! ## The page as a transition system

Every control of the two views and every completion of an asynchronous operation is an
event.  `step` applies the handler when the control is rendered and enabled (or the operation
is outstanding), then lets React commit: the effects whose dependency changed run, and
`DetectionCamera` is unmounted when the token stops being truthy. -/

/-- The initial state of `App` over a local storage whose hidden-id entry reads as
`deletedIds`. -/
def AppState.initial (ls : Storage) (deletedIds : List String) : AppState :=
  { token := ofNullable (ls.getItem "access_token")
    username := ofNullable (ls.getItem "username")
    authTab := "login"
    history := []
    selectedFile := none
    previewUrl := none
    conf := 25
    loading := false
    results := none
    selectedHistoryItem := none
    deletedIds := deletedIds
    historyImageUrl := none
    historyImageError := none
    historyImageLoading := false
    inputMode := "upload"
    effectPreviewUrl := none
    effectHistoryImageUrl := none }

/-- The page right after `App` mounted over the local storage `ls`, its effects run.  `none`
when the stored hidden-id entry does not read as an array of strings. -/
def mountApp (ls : Storage) : Option World :=
  match initialDeletedIds ls with
  | none => none
  | some ids =>
    some (tokenEffect
      { app := AppState.initial ls ids
        cam := CameraState.initial
        env := { localStorage := ls, created := [], revoked := [], alerts := [], requests := [],
                 mediaRequests := 0, stoppedTracks := [] }
        mount := 0
        pendingPredicts := []
        pendingHistory := 0
        pendingMedia := []
        pendingBlobs := []
        pendingImages := 0 })

/-- Unmounting `DetectionCamera`: the cleanup registered by the mount effect runs the
`stopCamera` of the first render, whose `cameraStream` is the initial `null`; the state of the
instance is then dropped, and the next instance starts from the initial state. -/
def unmountDetectionCamera (w : World) : World :=
  let w1 := stopCamera CameraState.initial.cameraStream w
  { w1 with cam := CameraState.initial, mount := w.mount + 1 }

/-- The commit that follows a handler: `old` is the page before the handler ran, `new` the
page after it. -/
def commit (old new : World) : World :=
  let w1 := if new.app.token = old.app.token then new else tokenEffect new
  let w2 :=
    if w1.app.selectedHistoryItem = old.app.selectedHistoryItem then w1
    else selectedHistoryItemEffect w1
  if old.app.token.truthy ∧ ¬ new.app.token.truthy then unmountDetectionCamera w2 else w2

/-- The events of the page. -/
inductive Event where
  | auth (type username password : String) (outcome : AuthOutcome)
  | setAuthTab (tab : String)
  | logout
  | modeSwitch (mode : String)
  | fileChange (file : Option File) (url : String)
  | tapStartCamera
  | mediaResolve (i : Nat) (outcome : Option MediaStream)
  | capture
  | blobReady (i : Nat) (file : File) (url : String)
  | retake
  | setConf (k : Nat)
  | submit
  | predictResolve (i : Nat) (outcome : PredictOutcome)
  | historyResolve (outcome : Option (List HistoryEntry))
  | newAnalysis
  | hide (id : String)
  | selectHistory (item : HistoryEntry)
  | closeHistory
  | imageResolve (outcome : Option String)
  deriving DecidableEq, Repr

/-- The handler of an event, or `none` when the event cannot happen in the page `w`: its
control is not rendered or is disabled, a `required` form field is empty, the object URL is
not a fresh one, or no such operation is outstanding. -/
def handle (ev : Event) (w : World) : Option World :=
  match ev with
  | .auth type username password outcome =>
    if (type = "login" ∨ type = "register") ∧ username ≠ "" ∧ password ≠ "" then
      some (handleAuth type [("username", username), ("password", password)] outcome w)
    else none
  | .setAuthTab tab =>
    if ¬ w.app.token.truthy ∧ (tab = "login" ∨ tab = "register") then
      some { w with app := { w.app with authTab := tab } }
    else none
  | .logout => if w.app.token.truthy then some (handleLogout w) else none
  | .modeSwitch mode =>
    if w.app.token.truthy ∧ (mode = "upload" ∨ mode = "camera") then
      some (handleModeSwitch mode w)
    else none
  | .fileChange file url =>
    if w.app.token.truthy ∧ w.app.inputMode = "upload" ∧ url ≠ "" ∧ url ∉ w.env.created then
      some (onFileChange file url w)
    else none
  | .tapStartCamera =>
    if w.app.token.truthy ∧ w.app.inputMode ≠ "upload" ∧ ¬ w.cam.showCameraPreview
        ∧ w.app.selectedFile = none then
      some (startCamera w)
    else none
  | .mediaResolve i outcome =>
    match w.pendingMedia.get? i with
    | some inst =>
      some (startCameraResume inst outcome { w with pendingMedia := w.pendingMedia.eraseIdx i })
    | none => none
  | .capture =>
    if w.app.token.truthy ∧ w.app.inputMode ≠ "upload" ∧ w.cam.cameraActive
        ∧ w.cam.showCameraPreview then
      some (capturePhoto w)
    else none
  | .blobReady i file url =>
    match w.pendingBlobs.get? i with
    | some (inst, previewUrl) =>
      if url ≠ "" ∧ url ∉ w.env.created then
        some (capturePhotoResume inst previewUrl file url
          { w with pendingBlobs := w.pendingBlobs.eraseIdx i })
      else none
    | none => none
  | .retake =>
    if w.app.token.truthy ∧ w.app.inputMode = "camera" ∧ ¬ w.cam.showCameraPreview
        ∧ w.app.selectedFile ≠ none then
      some { w with cam := { w.cam with showCameraPreview := true } }
    else none
  | .setConf k =>
    if w.app.token.truthy ∧ k ≤ 18 then
      some { w with app := { w.app with conf := 10 + 5 * k } }
    else none
  | .submit =>
    if w.app.token.truthy
        ∧ submitDisabled w.app.selectedFile w.app.loading w.cam.showCameraPreview = false then
      some (handlePredict w)
    else none
  | .predictResolve i outcome =>
    match w.pendingPredicts.get? i with
    | some token =>
      some (handlePredictResume token outcome
        { w with pendingPredicts := w.pendingPredicts.eraseIdx i })
    | none => none
  | .historyResolve outcome =>
    if 0 < w.pendingHistory then
      let w1 := { w with pendingHistory := w.pendingHistory - 1 }
      match outcome with
      | some data => some { w1 with app := { w1.app with history := data } }
      | none => some w1
    else none
  | .newAnalysis =>
    if w.app.token.truthy ∧ w.app.results ≠ none then some (resetDetection w) else none
  | .hide id =>
    if w.app.token.truthy
        ∧ (displayedHistory w.app.history w.app.deletedIds).any (fun item => item._id = id) then
      some (handleHideHistoryItem id w)
    else none
  | .selectHistory item =>
    if w.app.token.truthy ∧ item ∈ displayedHistory w.app.history w.app.deletedIds then
      some { w with app := { w.app with selectedHistoryItem := some item } }
    else none
  | .closeHistory =>
    if w.app.token.truthy ∧ w.app.selectedHistoryItem ≠ none then
      some { w with app := { w.app with selectedHistoryItem := none } }
    else none
  | .imageResolve outcome =>
    if 0 < w.pendingImages then
      some (fetchHistoryImageResume outcome { w with pendingImages := w.pendingImages - 1 })
    else none

/-- One event: the handler, then the commit. -/
def step (ev : Event) (w : World) : Option World :=
  (handle ev w).map (commit w)

/-- A sequence of events, from the first on; `none` as soon as one cannot happen. -/
def run : List Event → World → Option World
  | [], w => some w
  | ev :: rest, w =>
    match step ev w with
    | some w1 => run rest w1
    | none => none

/-- Whether a request is a prediction request. -/
def Request.isPredict : Request → Bool
  | .predict _ _ _ => true
  | _ => false

/-- The prediction requests sent so far, in order. -/
def predictRequests (w : World) : List Request :=
  w.env.requests.filter Request.isPredict

/-- Whether an event is not a successful login whose response carries no truthy
`access_token`. -/
def Event.loginCarriesToken : Event → Bool
  | .auth type _ _ (.ok (some access_token)) => type != "login" || access_token.truthy
  | _ => true

/-- The part of the page the session and submission properties speak of: the token, the
username, `loading`, the outstanding predictions and the prediction requests sent. -/
def core (w : World) : JsVal × JsVal × Bool × List JsVal × List Request :=
  (w.app.token, w.app.username, w.app.loading, w.pendingPredicts,
    w.env.requests.filter Request.isPredict)

/-- Whether a value is `null` or `undefined`. -/
def JsVal.isNullish : JsVal → Bool
  | .undefined => true
  | .null => true
  | _ => false

/-! ## Concrete pages -/

/-- A local storage holding a session. -/
def signedInStorage : Storage := [("access_token", "tok"), ("username", "alice")]

/-- An image file. -/
def scalpFile : File := { name := "scalp.png", type := "image/png" }

/-- The page right after `App` mounted over `signedInStorage`: the detection view is
freshly mounted and the history is being loaded. -/
def freshPage : World :=
  { app := AppState.initial signedInStorage []
    cam := CameraState.initial
    env := { localStorage := signedInStorage, created := [], revoked := [], alerts := [],
             requests := [Request.history (.str "tok")], mediaRequests := 0, stoppedTracks := [] }
    mount := 0
    pendingPredicts := []
    pendingHistory := 1
    pendingMedia := []
    pendingBlobs := []
    pendingImages := 0 }

/-- The page after the user picked `scalpFile` in the freshly mounted detection view. -/
def pageWithPreview : World := onFileChange (some scalpFile) "blob:1" freshPage

/-- A history entry with the given `_id`. -/
def entryWithId (id : String) : HistoryEntry :=
  { _id := id, filename := "scalp.png", image_filename := some "scalp.png", username := none,
    timestamp := "2026-01-01T00:00:00", status := "accepted", diagnosis := none,
    message := none, detections := none }

/-- The page over an empty local storage: nobody is signed in. -/
def anonymousPage : World :=
  { freshPage with
    app := AppState.initial [] []
    env := { freshPage.env with localStorage := [], requests := [] }
    pendingHistory := 0 }

/-! ## The capture controller -/

/-- The Retake button: `() => setShowCameraPreview(true)`. -/
def retake (w : World) : World :=
  { w with cam := { w.cam with showCameraPreview := true } }

/-- The operations of the capture controller, called one after the other outside any view:
`startCamera` up to its `await`, its continuation with the device granted or denied, the
snapshot button and the `toBlob` callback, the Retake button, and `stopCamera` as a handler
calls it (with the `cameraStream` of the current render). -/
inductive CaptureOp where
  | start
  | granted (inst : Nat) (stream : MediaStream)
  | denied (inst : Nat)
  | capture
  | snapshot (inst : Nat) (previewUrl : Option String) (file : File) (url : String)
  | retake
  | stop
  deriving DecidableEq, Repr

/-- One operation of the capture controller. -/
def applyCaptureOp (op : CaptureOp) (w : World) : World :=
  match op with
  | .start => startCamera w
  | .granted inst stream => startCameraResume inst (some stream) w
  | .denied inst => startCameraResume inst none w
  | .capture => capturePhoto w
  | .snapshot inst previewUrl file url => capturePhotoResume inst previewUrl file url w
  | .retake => retake w
  | .stop => stopCamera w.cam.cameraStream w

/-- A sequence of operations of the capture controller, from the first on. -/
def runCapture : List CaptureOp → World → World
  | [], w => w
  | op :: rest, w => runCapture rest (applyCaptureOp op w)

/-- The invariant of the capture session: a stream handle is held exactly when
`cameraActive` is true. -/
def streamIffActive (w : World) : Prop :=
  w.cam.cameraStream.isSome = w.cam.cameraActive

/-- A device stream with two tracks. -/
def demoStream : MediaStream := { id := 1, tracks := [1, 2] }

/-- A captured still. -/
def snapshotFile : File := { name := "camera_1.jpg", type := "image/jpeg" }

/-- The page `freshPage` after a switch to capture mode and the grant of `demoStream`: the
live preview is showing. -/
def activeCameraPage : World :=
  { freshPage with
    app := { freshPage.app with inputMode := "camera" }
    cam := { cameraActive := true, cameraStream := some demoStream, showCameraPreview := true }
    env := { freshPage.env with mediaRequests := 1 } }

/-- The page `activeCameraPage` after one snapshot: the captured frame is frozen. -/
def frozenPage : World := capturePhotoResume 0 none snapshotFile "blob:1" activeCameraPage

/-! ## The preview slot -/

/-- The installs into the preview slot and the clears of it, each run to its end before the
next starts: a file selection, a snapshot (the button followed at once by its `toBlob`
callback), and a logout. -/
inductive SlotOp where
  | select (file : File) (url : String)
  | snapshot (file : File) (url : String)
  | clear
  deriving DecidableEq, Repr

/-- One operation on the preview slot; `none` when the file is not an image or the object
URL is not a fresh one. -/
def applySlotOp (op : SlotOp) (w : World) : Option World :=
  match op with
  | .select file url =>
    if startsWith file.type "image/" ∧ url ≠ "" ∧ url ∉ w.env.created then
      some (onFileChange (some file) url w)
    else none
  | .snapshot file url =>
    if url ≠ "" ∧ url ∉ w.env.created then
      some (capturePhotoResume w.mount w.app.previewUrl file url w)
    else none
  | .clear => some (handleLogout w)

/-- A sequence of operations on the preview slot, from the first on. -/
def runSlot : List SlotOp → World → Option World
  | [], w => some w
  | op :: rest, w =>
    match applySlotOp op w with
    | some w1 => runSlot rest w1
    | none => none

/-- The URL the preview slot holds, as a list. -/
def slotUrls (w : World) : List String :=
  match w.app.previewUrl with
  | some u => [u]
  | none => []

/-- The bookkeeping of a slot used by one operation at a time: the URLs created are those
released, in order, followed by the one the slot holds; none was created twice, none is
empty. -/
def SlotInv (w : World) : Prop :=
  w.env.created = w.env.revoked ++ slotUrls w ∧ w.env.created.Nodup ∧ "" ∉ w.env.created

/-! ## The history image -/

/-- The URL `fetchHistoryImage` requests: the template string
`${apiBase}/uploads/${item.username || username}/${item.image_filename}`. -/
def uploadUrl : Request → Option String
  | .upload apiBase username image_filename _ =>
    some (apiBase ++ "/uploads/" ++ username.toStr ++ "/" ++ image_filename)
  | _ => none

/-- The end of `fetchHistoryImage`: the object URL made of the response, or the error thrown
by the `catch` when the request (or the making of the URL) fails. -/
def fetchHistoryImageFinish (outcome : Option String) : Except String String :=
  match outcome with
  | some url => .ok url
  | none => .error "Unable to retrieve image from server"

/-! ## The results view -/

/-- One rendered detection row: its `key`, the class name, and the confidence the row
prints as `(confidence * 100).toFixed(1)` followed by `%`. -/
structure DetectionRow where
  key : Nat
  class_name : String
  confidence : ℚ
  deriving DecidableEq, Repr

/-- The rows `detections.map((det, idx) => ...)` renders, the first with index `idx`. -/
def detectionRows (idx : Nat) : List Detection → List DetectionRow
  | [] => []
  | det :: rest =>
    { key := idx, class_name := det.class_name, confidence := det.confidence }
      :: detectionRows (idx + 1) rest

/-- What the results view shows for a non-null `results`. -/
inductive ResultsView where
  | rejected (reason message : Option String)
  | healthy (diagnosis message : Option String)
  | detected (annotated_image : Option String) (rows : List DetectionRow)
  deriving DecidableEq, Repr

/-- The results view of `App` for a non-null `results`: the rejection panel, the
no-alopecia panel, or the annotated image with `results.detections.map(...)`, which throws a
`TypeError` when `detections` is `undefined`. -/
def renderResults (results : PredictionResult) : Except String ResultsView :=
  if results.status = "rejected" then .ok (.rejected results.reason results.message)
  else if results.diagnosis = some "No Alopecia Detected" then
    .ok (.healthy results.diagnosis results.message)
  else
    match results.detections with
    | some detections => .ok (.detected results.annotated_image (detectionRows 0 detections))
    | none => .error "TypeError: Cannot read properties of undefined (reading 'map')"

/-- The detection rows of the history detail view:
`selectedHistoryItem.detections && selectedHistoryItem.detections.map(...)`. -/
def renderHistoryDetections (item : HistoryEntry) : Except String (List DetectionRow) :=
  match item.detections with
  | some detections => .ok (detectionRows 0 detections)
  | none => .ok []

/-- An accepted result with a diagnosis and no `detections`. -/
def resultWithoutDetections : PredictionResult :=
  { status := "accepted", diagnosis := some "Alopecia Detected", reason := none,
    message := none, detections := none, annotated_image := none }

/-- `handlePredict()` run to its end along the failure path: the request leaves, then
rejects with `err`. -/
def handlePredictFailed (err : AxiosError) (w : World) : World :=
  handlePredictResume w.app.token (.error err) (handlePredict w)

/-- The URLs the statement `if (url) URL.revokeObjectURL(url)` releases: `url` when it is
set and non-empty, none otherwise. -/
def releasedBy (url : Option String) : List String :=
  match url with
  | some u => if u != "" then [u] else []
  | none => []

/-- The text that follows the first element of a serialized array: each further element
preceded by its comma. -/
def elemsAfter : List (List Char) → List Char
  | [] => []
  | s :: rest => Char.ofNat 44 :: (QuoteJSONString s ++ elemsAfter rest)

/-! ### Reading back what `JSON.stringify` wrote -/

theorem ofNat_toNat_eq (c : Char) (n : Nat) (h : c.toNat = n) : Char.ofNat n = c := by
  subst h
  exact Char.ofNat_toNat c

theorem hex4_hexDigit (n : Nat) (h : n < 32) :
    hex4 (hexDigit (n / 4096 % 16)) (hexDigit (n / 256 % 16)) (hexDigit (n / 16 % 16))
      (hexDigit (n % 16)) = some n := by
  interval_cases n <;> decide

theorem skipWs_cons (c : Char) (rest : List Char)
    (h : ¬ (c.toNat = 32 ∨ c.toNat = 9 ∨ c.toNat = 10 ∨ c.toNat = 13)) :
    skipWs (c :: rest) = c :: rest := by
  simp only [skipWs, h, if_false]

theorem parseStringBody_close (rest : List Char) :
    parseStringBody (Char.ofNat 34 :: rest) = some ([], rest) := by
  rw [parseStringBody.eq_def]
  simp

theorem parseStringBody_escape (e ch : Char) (tail : List Char) (he : e.toNat ≠ 117)
    (hu : unescape e = some ch) :
    parseStringBody (Char.ofNat 92 :: e :: tail)
      = (parseStringBody tail).map (fun r => (ch.toNat :: r.1, r.2)) := by
  rw [parseStringBody.eq_def]
  simp [he, hu]

theorem parseStringBody_unicode (a b x d : Char) (n : Nat) (tail : List Char)
    (hn : hex4 a b x d = some n) :
    parseStringBody (Char.ofNat 92 :: Char.ofNat 117 :: a :: b :: x :: d :: tail)
      = (parseStringBody tail).map (fun r => (n :: r.1, r.2)) := by
  rw [parseStringBody.eq_def]
  simp only [hn]
  simp

theorem parseStringBody_plain (c : Char) (tail : List Char) (h34 : c.toNat ≠ 34)
    (h92 : c.toNat ≠ 92) (h32 : ¬ c.toNat < 32) :
    parseStringBody (c :: tail)
      = (parseStringBody tail).map (fun r => (c.toNat :: r.1, r.2)) := by
  rw [parseStringBody.eq_def]
  simp [h34, h92, h32]

theorem parseStringBody_quoteChars (s rest : List Char) :
    parseStringBody (quoteChars s ++ Char.ofNat 34 :: rest) = some (s.map Char.toNat, rest) := by
  induction s with
  | nil => exact parseStringBody_close rest
  | cons c cs ih =>
    rw [quoteChars, QuoteJSONChar]
    split_ifs with h8 h9 h10 h12 h13 h34 h92 h32 <;>
      simp only [UnicodeEscape, List.cons_append, List.nil_append]
    · rw [parseStringBody_escape (Char.ofNat 98) (Char.ofNat 8) _ (by decide) (by decide), ih,
        List.map_cons, h8]
      rfl
    · rw [parseStringBody_escape (Char.ofNat 116) (Char.ofNat 9) _ (by decide) (by decide), ih,
        List.map_cons, h9]
      rfl
    · rw [parseStringBody_escape (Char.ofNat 110) (Char.ofNat 10) _ (by decide) (by decide), ih,
        List.map_cons, h10]
      rfl
    · rw [parseStringBody_escape (Char.ofNat 102) (Char.ofNat 12) _ (by decide) (by decide), ih,
        List.map_cons, h12]
      rfl
    · rw [parseStringBody_escape (Char.ofNat 114) (Char.ofNat 13) _ (by decide) (by decide), ih,
        List.map_cons, h13]
      rfl
    · rw [parseStringBody_escape (Char.ofNat 34) (Char.ofNat 34) _ (by decide) (by decide), ih,
        List.map_cons, h34]
      rfl
    · rw [parseStringBody_escape (Char.ofNat 92) (Char.ofNat 92) _ (by decide) (by decide), ih,
        List.map_cons, h92]
      rfl
    · rw [parseStringBody_unicode _ _ _ _ c.toNat _ (hex4_hexDigit _ h32), ih]
      rfl
    · rw [parseStringBody_plain c _ h34 h92 h32, ih]
      rfl

theorem toNat_not_surrogate (c : Char) : ¬ (55296 ≤ c.toNat ∧ c.toNat ≤ 57343) := by
  have h := c.valid
  simp only [UInt32.isValidChar, Nat.isValidChar] at h
  have ht : c.toNat = c.val.toNat := rfl
  omega

theorem decodeUnits_map_toNat (s : List Char) : decodeUnits (s.map Char.toNat) = some s := by
  induction s with
  | nil => rfl
  | cons c cs ih =>
    have hc := toNat_not_surrogate c
    cases cs with
    | nil =>
      simp only [List.map_cons, List.map_nil, decodeUnits, if_neg hc, Char.ofNat_toNat]
    | cons d ds =>
      have hhigh : ¬ (55296 ≤ c.toNat ∧ c.toNat ≤ 56319) := by omega
      have hlow : ¬ (56320 ≤ c.toNat ∧ c.toNat ≤ 57343) := by omega
      simp only [List.map_cons] at ih ⊢
      simp only [decodeUnits, if_neg hhigh, if_neg hlow, ih, Option.map_some', Char.ofNat_toNat]

theorem parseString_QuoteJSONString (s rest : List Char) :
    parseString (QuoteJSONString s ++ rest) = some (s, rest) := by
  rw [QuoteJSONString, List.cons_append, List.append_assoc, List.singleton_append, parseString]
  simp [parseStringBody_quoteChars, decodeUnits_map_toNat]

theorem joinElems_cons (s : List Char) (l : List (List Char)) :
    joinElems (s :: l) = QuoteJSONString s ++ elemsAfter l := by
  induction l generalizing s with
  | nil => simp [joinElems, elemsAfter]
  | cons t rest ih => rw [joinElems, ih t, elemsAfter]

theorem parseTail_elemsAfter (l : List (List Char)) (fuel : Nat) (rest : List Char)
    (h : l.length < fuel) :
    parseTail fuel (elemsAfter l ++ Char.ofNat 93 :: rest) = some (l, rest) := by
  induction l generalizing fuel with
  | nil =>
    obtain ⟨k, rfl⟩ : ∃ k, fuel = k + 1 := ⟨fuel - 1, by simp at h; omega⟩
    rw [elemsAfter, List.nil_append, parseTail, skipWs_cons _ _ (by decide)]
    simp
  | cons s t ih =>
    obtain ⟨k, rfl⟩ : ∃ k, fuel = k + 1 := ⟨fuel - 1, by omega⟩
    have hk : t.length < k := by simp at h; omega
    rw [elemsAfter, List.cons_append, parseTail, skipWs_cons _ _ (by decide)]
    have hq : skipWs (QuoteJSONString s ++ (elemsAfter t ++ Char.ofNat 93 :: rest))
        = QuoteJSONString s ++ (elemsAfter t ++ Char.ofNat 93 :: rest) := by
      rw [QuoteJSONString, List.cons_append, skipWs_cons _ _ (by decide)]
    simp only []
    rw [if_neg (by decide), if_pos (by decide), List.append_assoc, hq,
      parseString_QuoteJSONString]
    simp [ih k hk]

theorem parseArray_stringifyChars (l : List (List Char)) (fuel : Nat) (h : l.length < fuel) :
    parseArray fuel (stringifyChars l) = some (l, []) := by
  cases l with
  | nil =>
    rw [stringifyChars, joinElems, List.nil_append, parseArray, skipWs_cons _ _ (by decide)]
    simp [skipWs_cons _ _ (by decide : ¬ ((Char.ofNat 93).toNat = 32 ∨ (Char.ofNat 93).toNat = 9
      ∨ (Char.ofNat 93).toNat = 10 ∨ (Char.ofNat 93).toNat = 13))]
  | cons s t =>
    have ht : t.length < fuel := by simp at h; omega
    rw [stringifyChars, joinElems_cons, parseArray, skipWs_cons _ _ (by decide)]
    have hq : skipWs (QuoteJSONString s ++ elemsAfter t ++ [Char.ofNat 93])
        = Char.ofNat 34
            :: (quoteChars s ++ [Char.ofNat 34] ++ (elemsAfter t ++ [Char.ofNat 93])) := by
      rw [List.append_assoc, QuoteJSONString, List.cons_append, skipWs_cons _ _ (by decide)]
    have hp := parseString_QuoteJSONString s (elemsAfter t ++ [Char.ofNat 93])
    rw [QuoteJSONString, List.cons_append] at hp
    simp only [hq]
    rw [if_pos (by decide), if_neg (by decide), hp]
    simp [parseTail_elemsAfter t fuel [] ht]

theorem length_elemsAfter (l : List (List Char)) : l.length ≤ (elemsAfter l).length := by
  induction l with
  | nil => simp
  | cons s t ih => simp [elemsAfter]; omega

theorem length_stringifyChars (l : List (List Char)) :
    l.length < (stringifyChars l).length := by
  cases l with
  | nil => simp [stringifyChars]
  | cons s t =>
    have := length_elemsAfter t
    rw [stringifyChars, joinElems_cons]
    simp [QuoteJSONString]
    omega

theorem map_mk_map_data (l : List String) : (l.map String.data).map String.mk = l := by
  induction l with
  | nil => rfl
  | cons s t ih => rw [List.map_cons, List.map_cons, ih]

/-- Reading back with `JSON.parse` the text `JSON.stringify` wrote for an array of strings
gives the array. -/
theorem JSON_parse_stringify (l : List String) : JSON_parse (JSON_stringify l) = some l := by
  rw [JSON_parse, JSON_stringify]
  simp only []
  rw [parseArray_stringifyChars _ _ (length_stringifyChars _)]
  simp only [skipWs, if_true]
  rw [map_mk_map_data]

/-! ### Local storage -/

theorem getItem_setItem (st : Storage) (key value : String) :
    (st.setItem key value).getItem key = some value := by
  induction st with
  | nil => simp [Storage.setItem, Storage.getItem]
  | cons p rest ih =>
    obtain ⟨k, v⟩ := p
    by_cases h : k = key
    · simp [Storage.setItem, Storage.getItem, h]
    · simp [Storage.setItem, Storage.getItem, h, ih]

theorem getItem_setItem_of_ne (st : Storage) (key value other : String) (h : other ≠ key) :
    (st.setItem key value).getItem other = st.getItem other := by
  induction st with
  | nil => simp [Storage.setItem, Storage.getItem, Ne.symm h]
  | cons p rest ih =>
    obtain ⟨k, v⟩ := p
    by_cases hk : k = key
    · subst hk
      simp [Storage.setItem, Storage.getItem, Ne.symm h]
    · by_cases ho : k = other
      · subst ho
        simp [Storage.setItem, Storage.getItem, h]
      · simp [Storage.setItem, Storage.getItem, hk, ho, ih]

theorem JSON_stringify_ne_empty (l : List String) : JSON_stringify l ≠ "" := by
  intro h
  have := congrArg String.data h
  simp [JSON_stringify, stringifyChars] at this

/-! ### History visibility -/

theorem isVisible_append (L : List String) (x : String) (item : HistoryEntry) :
    isVisible (L ++ [x]) item = (isVisible L item && (item._id != x)) := by
  simp only [isVisible]
  by_cases h : item._id = x <;> by_cases hL : item._id ∈ L <;> simp [h, hL]

/-! ### What releasing a URL leaves alone -/

@[simp] theorem revokeIfSet_app (url : Option String) (w : World) :
    (revokeIfSet url w).app = w.app := by
  unfold revokeIfSet
  split
  · split <;> rfl
  · rfl

@[simp] theorem revokeIfSet_cam (url : Option String) (w : World) :
    (revokeIfSet url w).cam = w.cam := by
  unfold revokeIfSet
  split
  · split <;> rfl
  · rfl

@[simp] theorem revokeIfSet_pendingPredicts (url : Option String) (w : World) :
    (revokeIfSet url w).pendingPredicts = w.pendingPredicts := by
  unfold revokeIfSet
  split
  · split <;> rfl
  · rfl

@[simp] theorem revokeIfSet_requests (url : Option String) (w : World) :
    (revokeIfSet url w).env.requests = w.env.requests := by
  unfold revokeIfSet
  split
  · split <;> rfl
  · rfl

@[simp] theorem revokeIfSet_localStorage (url : Option String) (w : World) :
    (revokeIfSet url w).env.localStorage = w.env.localStorage := by
  unfold revokeIfSet
  split
  · split <;> rfl
  · rfl

/-! ## Logout -/

/-- The body of `handleLogout` alone, before the commit: the token and the username are
`null`, the prediction result, the selected file and the preview URL are `null`, and the one
`URL.revokeObjectURL` statement of the body has released a preview URL that was set (the log
of releases has grown by that one URL); with no preview URL set, the body releases nothing. -/
theorem handleLogout_clears (w : World) :
    (handleLogout w).app.token = JsVal.null ∧ (handleLogout w).app.username = JsVal.null
      ∧ (handleLogout w).app.results = none ∧ (handleLogout w).app.selectedFile = none
      ∧ (handleLogout w).app.previewUrl = none
      ∧ (∀ u, w.app.previewUrl = some u → u ≠ "" →
          (handleLogout w).env.revoked = w.env.revoked ++ [u])
      ∧ (truthyStr w.app.previewUrl = false → (handleLogout w).env.revoked = w.env.revoked) := by
  refine ⟨?_, ?_, ?_, ?_, ?_, ?_, ?_⟩
  · simp [handleLogout]
  · simp [handleLogout]
  · simp [handleLogout]
  · simp [handleLogout]
  · rfl
  · intro u hu hne
    simp [handleLogout, revokeIfSet, hu, hne]
  · intro h
    cases hp : w.app.previewUrl with
    | none => simp [handleLogout, revokeIfSet, hp]
    | some u =>
      have : u = "" := by simpa [truthyStr, hp] using h
      simp [handleLogout, revokeIfSet, hp, this]

theorem handleLogout_clears_witness :
    (handleLogout pageWithPreview).env.revoked = ["blob:1"]
      ∧ (handleLogout pageWithPreview).app.token = JsVal.null
      ∧ (handleLogout anonymousPage).env.revoked = [] :=
  ⟨(handleLogout_clears pageWithPreview).2.2.2.2.2.1 "blob:1" (by decide) (by decide),
    (handleLogout_clears pageWithPreview).1,
    (handleLogout_clears anonymousPage).2.2.2.2.2.2 (by decide)⟩

/-! ## Hiding history entries -/

/-- C2: `handleHideHistory(x, L, setDeletedIds)` sets the in-memory hidden list to `L` with
`x` appended and writes the JSON text of that whole list under `deleted_history_ids` (one
`setItem`, after which `getItem` returns that text); afterwards an entry whose `_id` is `x` is
not visible, and an entry with another `_id` is visible exactly when it was for `L`, which in
the call `App` makes is the hidden list held before the call. -/
theorem handleHideHistory_appends_and_persists (x : String) (L : List String) (w : World) :
    (handleHideHistory x L setDeletedIds w).app.deletedIds = L ++ [x]
      ∧ (handleHideHistory x L setDeletedIds w).env.localStorage
          = w.env.localStorage.setItem "deleted_history_ids" (JSON_stringify (L ++ [x]))
      ∧ (handleHideHistory x L setDeletedIds w).env.localStorage.getItem "deleted_history_ids"
          = some (JSON_stringify (L ++ [x]))
      ∧ (∀ item : HistoryEntry, item._id = x →
          isVisible (handleHideHistory x L setDeletedIds w).app.deletedIds item = false)
      ∧ (∀ item : HistoryEntry, item._id ≠ x →
          isVisible (handleHideHistory x L setDeletedIds w).app.deletedIds item
            = isVisible L item)
      ∧ (∀ item : HistoryEntry, item._id ≠ x →
          isVisible (handleHideHistoryItem x w).app.deletedIds item
            = isVisible w.app.deletedIds item) := by
  refine ⟨rfl, rfl, getItem_setItem _ _ _, ?_, ?_, ?_⟩
  · intro item h
    show isVisible (L ++ [x]) item = false
    rw [isVisible_append]
    simp [h]
  · intro item h
    show isVisible (L ++ [x]) item = isVisible L item
    rw [isVisible_append]
    simp [h]
  · intro item h
    show isVisible (w.app.deletedIds ++ [x]) item = isVisible w.app.deletedIds item
    rw [isVisible_append]
    simp [h]

theorem handleHideHistory_appends_and_persists_witness :
    (handleHideHistory "b" ["a"] setDeletedIds freshPage).app.deletedIds = ["a", "b"]
      ∧ (handleHideHistory "b" ["a"] setDeletedIds freshPage).env.localStorage.getItem
          "deleted_history_ids" = some "[\"a\",\"b\"]"
      ∧ isVisible (handleHideHistory "b" ["a"] setDeletedIds freshPage).app.deletedIds
          (entryWithId "b") = false
      ∧ isVisible (handleHideHistory "b" ["a"] setDeletedIds freshPage).app.deletedIds
          (entryWithId "c") = true :=
  ⟨(handleHideHistory_appends_and_persists "b" ["a"] freshPage).1,
    (handleHideHistory_appends_and_persists "b" ["a"] freshPage).2.2.1,
    (handleHideHistory_appends_and_persists "b" ["a"] freshPage).2.2.2.1 _ rfl,
    ((handleHideHistory_appends_and_persists "b" ["a"] freshPage).2.2.2.2.1 _ (by decide)).trans
      (by decide)⟩

/-- C3: hiding `x` twice in a row (the second call on the hidden list the first one set)
displays the same history as hiding it once. -/
theorem hide_twice_displays_same (H : List HistoryEntry) (L : List String) (x : String)
    (w : World) :
    displayedHistory H
        (handleHideHistory x (handleHideHistory x L setDeletedIds w).app.deletedIds setDeletedIds
          (handleHideHistory x L setDeletedIds w)).app.deletedIds
      = displayedHistory H (handleHideHistory x L setDeletedIds w).app.deletedIds := by
  show displayedHistory H (L ++ [x] ++ [x]) = displayedHistory H (L ++ [x])
  unfold displayedHistory
  apply List.filter_congr
  intro item _
  have h := isVisible_append (L ++ [x]) x item
  have h1 := isVisible_append L x item
  simp only [isVisible] at h h1
  rw [h, h1, Bool.and_assoc, Bool.and_self]

theorem tokenEffect_deletedIds (w : World) :
    (tokenEffect w).app.deletedIds = w.app.deletedIds := by
  unfold tokenEffect
  simp only []
  split <;> simp [loadHistoryData]

/-- C4: after `handleHideHistory(x, L, ...)` a reload over the same local storage reads back
`L` with `x` appended as the initial hidden list: `App` mounts, its hidden list is that list,
and the displayed history of any fetched list holds no entry whose `_id` is `x` or is in
`L`. -/
theorem hidden_survives_reload (x : String) (L : List String) (w : World) :
    initialDeletedIds (handleHideHistory x L setDeletedIds w).env.localStorage = some (L ++ [x])
      ∧ ∃ p, mountApp (handleHideHistory x L setDeletedIds w).env.localStorage = some p
          ∧ p.app.deletedIds = L ++ [x]
          ∧ ∀ (H : List HistoryEntry) (item : HistoryEntry),
              item._id = x ∨ item._id ∈ L → item ∉ displayedHistory H p.app.deletedIds := by
  have h1 : initialDeletedIds (handleHideHistory x L setDeletedIds w).env.localStorage
      = some (L ++ [x]) := by
    have hg : (handleHideHistory x L setDeletedIds w).env.localStorage.getItem
        "deleted_history_ids" = some (JSON_stringify (L ++ [x])) := getItem_setItem _ _ _
    simp only [initialDeletedIds, hg]
    rw [if_pos (by simpa using JSON_stringify_ne_empty (L ++ [x])), JSON_parse_stringify]
  refine ⟨h1, ?_⟩
  simp only [mountApp, h1]
  refine ⟨_, rfl, ?_, ?_⟩
  · rw [tokenEffect_deletedIds]
    rfl
  · intro H item hid hmem
    rw [tokenEffect_deletedIds] at hmem
    simp only [displayedHistory, List.mem_filter, AppState.initial] at hmem
    have := hmem.2
    simp at this
    rcases hid with hx | hL
    · exact this.2 hx
    · exact this.1 hL

theorem hidden_survives_reload_witness :
    initialDeletedIds (handleHideHistory "b" ["a"] setDeletedIds freshPage).env.localStorage
        = some ["a", "b"]
      ∧ ∃ p, mountApp (handleHideHistory "b" ["a"] setDeletedIds freshPage).env.localStorage
            = some p
          ∧ p.app.deletedIds = ["a", "b"]
          ∧ entryWithId "b" ∉ displayedHistory [entryWithId "a", entryWithId "b", entryWithId "c"]
              p.app.deletedIds
          ∧ entryWithId "a" ∉ displayedHistory [entryWithId "a", entryWithId "b", entryWithId "c"]
              p.app.deletedIds :=
  ⟨(hidden_survives_reload "b" ["a"] freshPage).1,
    (hidden_survives_reload "b" ["a"] freshPage).2.elim fun p hp =>
      ⟨p, hp.1, hp.2.1, hp.2.2 _ _ (Or.inl rfl), hp.2.2 _ _ (Or.inr (by decide))⟩⟩

/-- C5: the displayed history is the sub-sequence of the fetched list `H`, in the order of
`H`, made of the entries whose `_id` is not in the hidden list `D` (it is a sublist of `H`,
holds exactly those entries, and every sublist of `H` made of such entries is a sublist of
it); hiding an id changes the hidden list in memory and the entry `deleted_history_ids` of
local storage and nothing else: the fetched history, the requests sent, the other storage
keys and the rest of the page are as before, and the commit that follows runs no effect. -/
theorem displayed_is_filter_and_hide_frames (H : List HistoryEntry) (D : List String)
    (id : String) (w : World) :
    (displayedHistory H D).Sublist H
      ∧ (∀ item, item ∈ displayedHistory H D ↔ item ∈ H ∧ item._id ∉ D)
      ∧ (∀ l : List HistoryEntry, l.Sublist H → (∀ item ∈ l, item._id ∉ D) →
          l.Sublist (displayedHistory H D))
      ∧ handleHideHistoryItem id w
          = { w with
              app := { w.app with deletedIds := w.app.deletedIds ++ [id] }
              env := { w.env with
                localStorage := w.env.localStorage.setItem "deleted_history_ids"
                  (JSON_stringify (w.app.deletedIds ++ [id])) } }
      ∧ (handleHideHistoryItem id w).app.history = w.app.history
      ∧ (handleHideHistoryItem id w).env.requests = w.env.requests
      ∧ (∀ key, key ≠ "deleted_history_ids" →
          (handleHideHistoryItem id w).env.localStorage.getItem key
            = w.env.localStorage.getItem key)
      ∧ commit w (handleHideHistoryItem id w) = handleHideHistoryItem id w := by
  refine ⟨List.filter_sublist H, ?_, ?_, rfl, rfl, rfl, ?_, ?_⟩
  · intro item
    simp [displayedHistory]
  · intro l hl hall
    have h := hl.filter (fun item => !D.contains item._id)
    have hfix : l.filter (fun item => !D.contains item._id) = l := by
      apply List.filter_eq_self.mpr
      intro item hmem
      simpa using hall item hmem
    rw [hfix] at h
    exact h
  · intro key hkey
    exact getItem_setItem_of_ne _ _ _ _ hkey
  · simp [commit, handleHideHistoryItem, handleHideHistory, setDeletedIds]

theorem displayed_is_filter_and_hide_frames_witness :
    [entryWithId "a", entryWithId "c"].Sublist
        (displayedHistory [entryWithId "a", entryWithId "b", entryWithId "c"] ["b"])
      ∧ (handleHideHistoryItem "b" freshPage).env.localStorage.getItem "access_token"
          = some "tok" :=
  ⟨(displayed_is_filter_and_hide_frames _ ["b"] "b" freshPage).2.2.1 _
      (by decide) (by decide),
    ((displayed_is_filter_and_hide_frames [] [] "b" freshPage).2.2.2.2.2.2.1 "access_token"
      (by decide)).trans (by decide)⟩

/-! ## Submitting a prediction -/

/-- C6: with no image selected, `handlePredict` returns the page as it was: no request is
sent, `loading`, the prediction result and the history are unchanged, as is everything
else. -/
theorem handlePredict_without_file (w : World) (h : w.app.selectedFile = none) :
    handlePredict w = w ∧ (handlePredict w).env.requests = w.env.requests
      ∧ (handlePredict w).app.loading = w.app.loading
      ∧ (handlePredict w).app.results = w.app.results
      ∧ (handlePredict w).app.history = w.app.history := by
  have : handlePredict w = w := by simp [handlePredict, h]
  rw [this]
  exact ⟨rfl, rfl, rfl, rfl, rfl⟩

theorem handlePredict_without_file_witness :
    freshPage.app.selectedFile = none ∧ handlePredict freshPage = freshPage :=
  ⟨rfl, (handlePredict_without_file freshPage rfl).1⟩

/-- C7 (what the code does): in the freshly mounted detection view (input mode `upload`,
capture flags at their initial values, `showCameraPreview` among them at `true`), after one
valid image-file selection an image is selected and nothing is in flight, yet the submit
button is disabled and a submit cannot happen; the same holds when the view is mounted by a
login. -/
theorem submit_disabled_after_first_upload :
    mountApp signedInStorage = some freshPage
      ∧ step (Event.fileChange (some scalpFile) "blob:1") freshPage = some pageWithPreview
      ∧ pageWithPreview.app.inputMode = "upload"
      ∧ pageWithPreview.app.selectedFile = some scalpFile
      ∧ pageWithPreview.app.loading = false
      ∧ pageWithPreview.pendingPredicts = []
      ∧ pageWithPreview.cam.showCameraPreview = true
      ∧ submitDisabled pageWithPreview.app.selectedFile pageWithPreview.app.loading
          pageWithPreview.cam.showCameraPreview = true
      ∧ step Event.submit pageWithPreview = none
      ∧ (run [Event.auth "login" "alice" "secret" (.ok (some (JsVal.str "tok"))),
            Event.fileChange (some scalpFile) "blob:1"] anonymousPage).map
            (fun w => (w.app.inputMode, w.app.selectedFile, w.app.loading,
              submitDisabled w.app.selectedFile w.app.loading w.cam.showCameraPreview))
          = some ("upload", some scalpFile, false, true)
      ∧ run [Event.auth "login" "alice" "secret" (.ok (some (JsVal.str "tok"))),
            Event.fileChange (some scalpFile) "blob:1", Event.submit] anonymousPage = none := by
  decide

/-! ## Authentication -/

/-- C10: when the login or register request fails, `handleAuth` leaves the React state of
`App` (the token and the username with it) and the local storage unchanged, and shows one
alert: the `detail` of the error response when it is truthy, `Authentication failed`
otherwise (no response, no data, no detail, or an empty one); the commit that follows runs
no effect. -/
theorem handleAuth_failure (type : String) (params : List (String × String))
    (err : AxiosError) (w : World) :
    (handleAuth type params (.error err) w).app = w.app
      ∧ (handleAuth type params (.error err) w).env.localStorage = w.env.localStorage
      ∧ (handleAuth type params (.error err) w).env.alerts
          = w.env.alerts
            ++ [if err.detail.truthy then err.detail else JsVal.str "Authentication failed"]
      ∧ (err.response = none ∨ err.response = some none
            ∨ err.response = some (some JsVal.undefined) →
          (handleAuth type params (.error err) w).env.alerts
            = w.env.alerts ++ [JsVal.str "Authentication failed"])
      ∧ commit w (handleAuth type params (.error err) w)
          = handleAuth type params (.error err) w := by
  refine ⟨rfl, rfl, rfl, ?_, ?_⟩
  · intro h
    have hd : err.detail = JsVal.undefined := by
      rcases h with h | h | h <;> simp [AxiosError.detail, h]
    simp [handleAuth, alert, JsVal.or, hd, JsVal.truthy]
  · simp [commit, handleAuth, alert]

theorem handleAuth_failure_witness :
    (handleAuth "login" [("username", "alice"), ("password", "x")]
        (.error { response := some (some (.str "Incorrect username or password")) })
        anonymousPage).env.alerts = [JsVal.str "Incorrect username or password"]
      ∧ (handleAuth "login" [("username", "alice"), ("password", "x")]
          (.error { response := none }) anonymousPage).env.alerts
          = [JsVal.str "Authentication failed"] :=
  ⟨(handleAuth_failure "login" _ _ anonymousPage).2.2.1.trans (by decide),
    (handleAuth_failure "login" _ { response := none } anonymousPage).2.2.2.1 (Or.inl rfl)⟩

/-! ## What a commit leaves alone -/

theorem core_revokeIfSet (url : Option String) (w : World) :
    core (revokeIfSet url w) = core w := by
  simp [core]

theorem core_tokenEffect (w : World) : core (tokenEffect w) = core w := by
  unfold tokenEffect
  simp only []
  split <;> simp [core, loadHistoryData, Request.isPredict]

theorem core_selectedHistoryItemEffect (w : World) :
    core (selectedHistoryItemEffect w) = core w := by
  unfold selectedHistoryItemEffect
  split
  · rename_i item _
    by_cases h : truthyStr item.image_filename = true <;>
      simp [core, fetchHistoryImageData, fetchHistoryImage, h, Request.isPredict]
  · simp [core]

theorem core_unmountDetectionCamera (w : World) : core (unmountDetectionCamera w) = core w := by
  simp [core, unmountDetectionCamera, stopCamera, CameraState.initial]

theorem core_commit (old new : World) : core (commit old new) = core new := by
  unfold commit
  simp only []
  split_ifs <;>
    simp only [core_unmountDetectionCamera, core_selectedHistoryItemEffect, core_tokenEffect]

/-! ## What each handler does to the session and to submissions -/

theorem core_handle (ev : Event) (w w' : World) (h : handle ev w = some w') :
    core w' = core w
      ∨ (ev = Event.logout
          ∧ core w' = (JsVal.null, JsVal.null, w.app.loading, w.pendingPredicts,
              w.env.requests.filter Request.isPredict))
      ∨ (∃ u p t, ev = Event.auth "login" u p (.ok (some t)) ∧ u ≠ ""
          ∧ core w' = (t, JsVal.str u, w.app.loading, w.pendingPredicts,
              w.env.requests.filter Request.isPredict))
      ∨ (ev = Event.submit ∧ w.cam.showCameraPreview = false ∧ w.app.loading = false
          ∧ ∃ file, w.app.selectedFile = some file
            ∧ core w' = (w.app.token, w.app.username, true, w.pendingPredicts ++ [w.app.token],
                w.env.requests.filter Request.isPredict
                  ++ [Request.predict w.app.conf w.app.token file]))
      ∨ (∃ i outcome tok, ev = Event.predictResolve i outcome
          ∧ w.pendingPredicts.get? i = some tok
          ∧ core w' = (w.app.token, w.app.username, false, w.pendingPredicts.eraseIdx i,
              w.env.requests.filter Request.isPredict)) := by
  cases ev with
  | auth type username password outcome =>
    simp only [handle] at h
    split at h
    · rename_i hg
      cases h
      cases outcome with
      | error err => left; simp [core, handleAuth, alert, Request.isPredict]
      | ok data =>
        by_cases hl : type = "login"
        · subst hl
          cases data with
          | none => left; simp [core, handleAuth, alert, Request.isPredict]
          | some t =>
            right; right; left
            exact ⟨username, password, t, rfl, hg.2.1,
              by simp [core, handleAuth, paramsGet, Request.isPredict]⟩
        · left; simp [core, handleAuth, alert, hl, Request.isPredict]
    · cases h
  | setAuthTab tab =>
    simp only [handle] at h
    split at h
    · cases h; left; rfl
    · cases h
  | logout =>
    simp only [handle] at h
    split at h
    · cases h; right; left
      exact ⟨rfl, by simp [core, handleLogout]⟩
    · cases h
  | modeSwitch mode =>
    simp only [handle] at h
    split at h
    · cases h; left
      unfold handleModeSwitch startCamera
      simp only []
      split_ifs <;> simp [core, resetDetection, stopCamera]
      split <;> simp
    · cases h
  | fileChange file url =>
    simp only [handle] at h
    split at h
    · cases h; left
      unfold onFileChange
      split
      · split <;> simp [core, resetDetection, createObjectURL, alert]
      · simp [core, alert]
    · cases h
  | tapStartCamera =>
    simp only [handle] at h
    split at h
    · cases h; left
      unfold startCamera
      split_ifs <;> simp [core, resetDetection]
    · cases h
  | mediaResolve i outcome =>
    simp only [handle] at h
    split at h
    · cases h; left
      unfold startCameraResume
      split
      · simp only []
        split_ifs <;> simp [core, resetDetection]
      · simp [core, alert]
    · cases h
  | capture =>
    simp only [handle] at h
    split at h
    · cases h; left; rfl
    · cases h
  | blobReady i file url =>
    simp only [handle] at h
    split at h
    · split at h
      · cases h; left
        unfold capturePhotoResume
        simp only []
        split_ifs <;> simp [core, createObjectURL]
      · cases h
    · cases h
  | retake =>
    simp only [handle] at h
    split at h
    · cases h; left; rfl
    · cases h
  | setConf k =>
    simp only [handle] at h
    split at h
    · cases h; left; rfl
    · cases h
  | submit =>
    simp only [handle] at h
    split at h
    · rename_i hg
      cases h
      right; right; right; left
      obtain ⟨_, hd⟩ := hg
      cases hf : w.app.selectedFile with
      | none => simp [submitDisabled, hf] at hd
      | some file =>
        simp [submitDisabled, hf] at hd
        exact ⟨rfl, hd.2, hd.1, file, rfl,
          by simp [core, handlePredict, hf, Request.isPredict]⟩
    · cases h
  | predictResolve i outcome =>
    simp only [handle] at h
    split at h
    · rename_i tok hget
      cases h
      right; right; right; right
      refine ⟨i, outcome, tok, rfl, hget, ?_⟩
      cases outcome <;>
        simp [core, handlePredictResume, loadHistoryData, alert, Request.isPredict]
    · cases h
  | historyResolve outcome =>
    simp only [handle] at h
    split at h
    · left
      split at h <;> cases h <;> rfl
    · cases h
  | newAnalysis =>
    simp only [handle] at h
    split at h
    · cases h; left; rfl
    · cases h
  | hide id =>
    simp only [handle] at h
    split at h
    · cases h; left; rfl
    · cases h
  | selectHistory item =>
    simp only [handle] at h
    split at h
    · cases h; left; rfl
    · cases h
  | closeHistory =>
    simp only [handle] at h
    split at h
    · cases h; left; rfl
    · cases h
  | imageResolve outcome =>
    simp only [handle] at h
    split at h
    · cases h; left
      cases outcome <;> rfl
    · cases h

theorem core_step (ev : Event) (w w' : World) (h : step ev w = some w') :
    ∃ w1, handle ev w = some w1 ∧ core w' = core w1 := by
  unfold step at h
  cases hh : handle ev w with
  | none => simp [hh] at h
  | some w1 =>
    simp only [hh, Option.map_some', Option.some.injEq] at h
    exact ⟨w1, rfl, by rw [← h, core_commit]⟩

theorem run_induction (P : World → Prop) (Q : Event → Prop)
    (hstep : ∀ ev w w', Q ev → P w → step ev w = some w' → P w')
    (evs : List Event) (w w' : World) (hQ : ∀ ev ∈ evs, Q ev) (hP : P w)
    (hrun : run evs w = some w') : P w' := by
  induction evs generalizing w with
  | nil =>
    simp only [run, Option.some.injEq] at hrun
    exact hrun ▸ hP
  | cons ev rest ih =>
    simp only [run] at hrun
    cases hs : step ev w with
    | none => simp [hs] at hrun
    | some w1 =>
      simp only [hs] at hrun
      exact ih w1 (fun e he => hQ e (List.mem_cons_of_mem _ he))
        (hstep ev w w1 (hQ ev (List.mem_cons_self _ _)) hP hs) hrun

theorem core_mountApp (ls : Storage) (w0 : World) (h : mountApp ls = some w0) :
    core w0 = (ofNullable (ls.getItem "access_token"), ofNullable (ls.getItem "username"),
      false, [], []) := by
  unfold mountApp at h
  split at h
  · cases h
  · cases h
    rw [core_tokenEffect]
    rfl

/-! ## One prediction in flight -/

theorem single_flight_step (ev : Event) (w w' : World)
    (hinv : w.pendingPredicts.length ≤ 1 ∧ (w.pendingPredicts ≠ [] → w.app.loading = true))
    (h : step ev w = some w') :
    w'.pendingPredicts.length ≤ 1 ∧ (w'.pendingPredicts ≠ [] → w'.app.loading = true) := by
  obtain ⟨w1, hh, hc⟩ := core_step ev w w' h
  have hw' : w'.app.loading = (core w1).2.2.1 ∧ w'.pendingPredicts = (core w1).2.2.2.1 := by
    rw [← hc]
    exact ⟨rfl, rfl⟩
  rw [hw'.1, hw'.2]
  rcases core_handle ev w w1 hh with hu | ⟨_, hu⟩ | ⟨_, _, _, _, _, hu⟩ | ⟨_, _, hl, _, _, hu⟩
      | ⟨i, _, tok, _, hget, hu⟩
  · rw [hu]
    exact hinv
  · rw [hu]
    exact hinv
  · rw [hu]
    exact hinv
  · rw [hu]
    have hnil : w.pendingPredicts = [] := by
      by_contra hne
      have := hinv.2 hne
      rw [hl] at this
      cases this
    simp [hnil]
  · rw [hu]
    have hlen : w.pendingPredicts.length = 1 := by
      have hne : w.pendingPredicts ≠ [] := by
        intro hnil
        simp [hnil] at hget
      have := List.length_pos.mpr hne
      omega
    have hi : i < w.pendingPredicts.length := by
      by_contra hge
      rw [List.get?_eq_none.mpr (by omega)] at hget
      cases hget
    have : (w.pendingPredicts.eraseIdx i).length = 0 := by
      rw [List.length_eraseIdx, if_pos hi]
      omega
    have hnil := List.length_eq_zero.mp this
    simp [hnil]

/-- C8: the submit button is disabled whenever a submission is in flight (`loading`), no
image is selected, or the live preview is showing; hence in every page reached from a mount
by any sequence of events at most one prediction is outstanding and `loading` is true while
one is, no submit can happen in those situations, and a step that sends a prediction request
is a submit made with no prediction outstanding, the preview frozen and an image selected,
which sends that image. -/
theorem submit_guard_and_single_flight :
    (∀ (selectedFile : Option File) (loading showCameraPreview : Bool),
        loading = true ∨ selectedFile = none ∨ showCameraPreview = true →
        submitDisabled selectedFile loading showCameraPreview = true)
      ∧ ∀ (ls : Storage) (w0 : World) (evs : List Event) (w : World),
          mountApp ls = some w0 → run evs w0 = some w →
          w.pendingPredicts.length ≤ 1
            ∧ (w.pendingPredicts ≠ [] → w.app.loading = true)
            ∧ (w.pendingPredicts ≠ [] ∨ w.app.loading = true ∨ w.app.selectedFile = none
                ∨ w.cam.showCameraPreview = true → step Event.submit w = none)
            ∧ ∀ (ev : Event) (w' : World), step ev w = some w' →
                predictRequests w' ≠ predictRequests w →
                ev = Event.submit ∧ w.pendingPredicts = [] ∧ w.cam.showCameraPreview = false
                  ∧ ∃ file, w.app.selectedFile = some file
                    ∧ predictRequests w'
                        = predictRequests w ++ [Request.predict w.app.conf w.app.token file] := by
  have hguard : ∀ (selectedFile : Option File) (loading showCameraPreview : Bool),
      loading = true ∨ selectedFile = none ∨ showCameraPreview = true →
      submitDisabled selectedFile loading showCameraPreview = true := by
    intro f l p h
    rcases h with h | h | h <;> simp [submitDisabled, h]
  refine ⟨hguard, ?_⟩
  intro ls w0 evs w hmount hrun
  have h0 : w0.pendingPredicts.length ≤ 1
      ∧ (w0.pendingPredicts ≠ [] → w0.app.loading = true) := by
    have hc := core_mountApp ls w0 hmount
    have hp : w0.pendingPredicts = [] := congrArg (fun c => c.2.2.2.1) hc
    simp [hp]
  have hinv := run_induction
    (fun w => w.pendingPredicts.length ≤ 1 ∧ (w.pendingPredicts ≠ [] → w.app.loading = true))
    (fun _ => True) (fun ev a b _ ha hs => single_flight_step ev a b ha hs) evs w0 w
    (fun _ _ => trivial) h0 hrun
  refine ⟨hinv.1, hinv.2, ?_, ?_⟩
  · intro hdis
    have hd :
        submitDisabled w.app.selectedFile w.app.loading w.cam.showCameraPreview = true := by
      rcases hdis with h | h
      · exact hguard _ _ _ (Or.inl (hinv.2 h))
      · exact hguard _ _ _ h
    simp [step, handle, hd]
  · intro ev w' hstep hne
    obtain ⟨w1, hh, hc⟩ := core_step ev w w' hstep
    have hreq : predictRequests w' = (core w1).2.2.2.2 := by
      rw [← hc]
      rfl
    rw [hreq] at hne ⊢
    rcases core_handle ev w w1 hh with hu | ⟨_, hu⟩ | ⟨_, _, _, _, _, hu⟩
        | ⟨hev, hp, hl, file, hf, hu⟩ | ⟨_, _, _, _, _, hu⟩
    · rw [hu] at hne
      exact absurd rfl hne
    · rw [hu] at hne
      exact absurd rfl hne
    · rw [hu] at hne
      exact absurd rfl hne
    · rw [hu]
      refine ⟨hev, ?_, hp, file, hf, rfl⟩
      by_contra hnil
      have := hinv.2 hnil
      rw [hl] at this
      cases this
    · rw [hu] at hne
      exact absurd rfl hne

theorem submit_guard_and_single_flight_witness :
    ∃ w, run [Event.modeSwitch "upload", Event.fileChange (some scalpFile) "blob:1",
          Event.submit] freshPage = some w
      ∧ w.pendingPredicts.length ≤ 1 ∧ step Event.submit w = none :=
  ⟨_, rfl,
    (submit_guard_and_single_flight.2 signedInStorage freshPage
      [Event.modeSwitch "upload", Event.fileChange (some scalpFile) "blob:1", Event.submit] _
      (by decide) rfl).1,
    (submit_guard_and_single_flight.2 signedInStorage freshPage
      [Event.modeSwitch "upload", Event.fileChange (some scalpFile) "blob:1", Event.submit] _
      (by decide) rfl).2.2.1 (Or.inl (by decide))⟩

/-! ## Token and username together -/

/-- C9 (as stated, refuted): over an empty local storage (token and username both absent) a
login that succeeds with a response body carrying no `access_token` leaves the token
`undefined` and the username set. -/
theorem login_without_token_breaks_pairing :
    mountApp [] = some anonymousPage
      ∧ anonymousPage.app.token = JsVal.null ∧ anonymousPage.app.username = JsVal.null
      ∧ (run [Event.auth "login" "alice" "secret" (.ok (some JsVal.undefined))]
            anonymousPage).map (fun w => (w.app.token, w.app.username))
          = some (JsVal.undefined, JsVal.str "alice")
      ∧ JsVal.undefined.truthy = false ∧ (JsVal.str "alice").truthy = true := by
  decide

theorem pairing_step (ev : Event) (w w' : World) (hQ : ev.loginCarriesToken = true)
    (h : step ev w = some w') :
    (w.app.token.truthy = w.app.username.truthy →
        w'.app.token.truthy = w'.app.username.truthy)
      ∧ (w.app.token.isNullish = w.app.username.isNullish →
        w'.app.token.isNullish = w'.app.username.isNullish) := by
  obtain ⟨w1, hh, hc⟩ := core_step ev w w' h
  have hw' : w'.app.token = (core w1).1 ∧ w'.app.username = (core w1).2.1 := by
    rw [← hc]
    exact ⟨rfl, rfl⟩
  rw [hw'.1, hw'.2]
  rcases core_handle ev w w1 hh with hu | ⟨_, hu⟩ | ⟨u, p, t, hev, hne, hu⟩ | ⟨_, _, _, _, _, hu⟩
      | ⟨_, _, _, _, _, hu⟩
  · rw [hu]
    exact ⟨id, id⟩
  · rw [hu]
    exact ⟨fun _ => rfl, fun _ => rfl⟩
  · rw [hu]
    subst hev
    have ht : t.truthy = true := by simpa [Event.loginCarriesToken] using hQ
    have hs : (JsVal.str u).truthy = true := by simp [JsVal.truthy, hne]
    refine ⟨fun _ => by rw [ht, hs], fun _ => ?_⟩
    cases t <;> simp [JsVal.truthy] at ht <;> simp [JsVal.isNullish]
  · rw [hu]
    exact ⟨id, id⟩
  · rw [hu]
    exact ⟨id, id⟩

/-- C9 (amended): from a mount over a local storage whose token and username are both
present or both absent, after any sequence of events (login attempts that succeed or fail,
registrations, logouts and every other event of the page) in which each successful login
response carries a truthy `access_token`, the token and the username held by `App` are both
present or both absent.  This holds with presence read as truthy (the test `App` makes on the
token), and also with presence read as being neither `null` nor `undefined`. -/
theorem token_username_paired (ls : Storage) (w0 : World) (evs : List Event) (w : World)
    (hevs : ∀ ev ∈ evs, ev.loginCarriesToken = true)
    (hmount : mountApp ls = some w0) (hrun : run evs w0 = some w) :
    (truthyStr (ls.getItem "access_token") = truthyStr (ls.getItem "username") →
        w.app.token.truthy = w.app.username.truthy)
      ∧ ((ls.getItem "access_token").isSome = (ls.getItem "username").isSome →
        w.app.token.isNullish = w.app.username.isNullish) := by
  have hc := core_mountApp ls w0 hmount
  have ht : w0.app.token = ofNullable (ls.getItem "access_token") := congrArg (fun c => c.1) hc
  have hu : w0.app.username = ofNullable (ls.getItem "username") :=
    congrArg (fun c => c.2.1) hc
  constructor
  · intro hls
    have h0 : w0.app.token.truthy = w0.app.username.truthy := by
      rw [ht, hu]
      cases h1 : ls.getItem "access_token" <;> cases h2 : ls.getItem "username" <;>
        simp [h1, h2, truthyStr, ofNullable, JsVal.truthy] at hls ⊢
      all_goals exact hls
    exact run_induction (fun w => w.app.token.truthy = w.app.username.truthy)
      (fun ev => ev.loginCarriesToken = true)
      (fun ev a b hq ha hs => (pairing_step ev a b hq hs).1 ha) evs w0 w hevs h0 hrun
  · intro hls
    have h0 : w0.app.token.isNullish = w0.app.username.isNullish := by
      rw [ht, hu]
      cases h1 : ls.getItem "access_token" <;> cases h2 : ls.getItem "username" <;>
        simp [h1, h2, ofNullable, JsVal.isNullish] at hls ⊢
    exact run_induction (fun w => w.app.token.isNullish = w.app.username.isNullish)
      (fun ev => ev.loginCarriesToken = true)
      (fun ev a b hq ha hs => (pairing_step ev a b hq hs).2 ha) evs w0 w hevs h0 hrun

theorem token_username_paired_witness :
    ∃ w, run [Event.auth "login" "alice" "secret" (.ok (some (JsVal.str "tok"))), Event.logout,
          Event.auth "register" "bob" "pw" (.ok none),
          Event.auth "login" "bob" "pw" (.error { response := none }),
          Event.auth "login" "bob" "pw" (.ok (some (JsVal.str "tok2")))] anonymousPage = some w
      ∧ w.app.token.truthy = w.app.username.truthy
      ∧ w.app.token.isNullish = w.app.username.isNullish :=
  ⟨_, rfl,
    (token_username_paired [] anonymousPage
      [Event.auth "login" "alice" "secret" (.ok (some (JsVal.str "tok"))), Event.logout,
        Event.auth "register" "bob" "pw" (.ok none),
        Event.auth "login" "bob" "pw" (.error { response := none }),
        Event.auth "login" "bob" "pw" (.ok (some (JsVal.str "tok2")))] _
      (by decide) (by decide) rfl).1 (by decide),
    (token_username_paired [] anonymousPage
      [Event.auth "login" "alice" "secret" (.ok (some (JsVal.str "tok"))), Event.logout,
        Event.auth "register" "bob" "pw" (.ok none),
        Event.auth "login" "bob" "pw" (.error { response := none }),
        Event.auth "login" "bob" "pw" (.ok (some (JsVal.str "tok2")))] _
      (by decide) (by decide) rfl).2 (by decide)⟩

/-! ## The capture session -/

theorem streamIffActive_applyCaptureOp (op : CaptureOp) (w : World)
    (h : streamIffActive w) : streamIffActive (applyCaptureOp op w) := by
  unfold streamIffActive at h ⊢
  cases op with
  | start =>
    simp only [applyCaptureOp, startCamera]
    split <;> simpa [resetDetection] using h
  | granted inst stream =>
    simp only [applyCaptureOp, startCameraResume]
    split_ifs <;> simp [resetDetection, h]
  | denied inst => simpa [applyCaptureOp, startCameraResume, alert] using h
  | capture => simpa [applyCaptureOp, capturePhoto] using h
  | snapshot inst previewUrl file url =>
    simp only [applyCaptureOp, capturePhotoResume]
    split_ifs <;> simpa [createObjectURL] using h
  | retake => simpa [applyCaptureOp, retake] using h
  | stop =>
    simp only [applyCaptureOp, stopCamera]
    split <;> simp_all

theorem streamIffActive_handle (ev : Event) (w w' : World) (hinv : streamIffActive w)
    (h : handle ev w = some w') : streamIffActive w' := by
  cases ev with
  | auth type username password outcome =>
    simp only [handle] at h
    split at h
    · cases h
      unfold streamIffActive at hinv ⊢
      cases outcome with
      | error err => simpa [handleAuth, alert] using hinv
      | ok data =>
        by_cases hl : type = "login"
        · cases data <;> simpa [handleAuth, alert, hl] using hinv
        · simpa [handleAuth, alert, hl] using hinv
    · cases h
  | setAuthTab tab =>
    simp only [handle] at h
    split at h
    · cases h; exact hinv
    · cases h
  | logout =>
    simp only [handle] at h
    split at h
    · cases h
      unfold streamIffActive at hinv ⊢
      simpa [handleLogout] using hinv
    · cases h
  | modeSwitch mode =>
    simp only [handle] at h
    split at h
    · cases h
      unfold handleModeSwitch
      simp only []
      split
      · unfold streamIffActive
        simp only [resetDetection, stopCamera]
        split <;> simp_all
      · exact streamIffActive_applyCaptureOp CaptureOp.start _ hinv
    · cases h
  | fileChange file url =>
    simp only [handle] at h
    split at h
    · cases h
      unfold streamIffActive at hinv ⊢
      unfold onFileChange
      split
      · split <;> simpa [resetDetection, createObjectURL, alert] using hinv
      · simpa [alert] using hinv
    · cases h
  | tapStartCamera =>
    simp only [handle] at h
    split at h
    · cases h
      exact streamIffActive_applyCaptureOp CaptureOp.start _ hinv
    · cases h
  | mediaResolve i outcome =>
    simp only [handle] at h
    split at h
    · cases h
      rename_i inst _
      cases outcome with
      | some stream => exact streamIffActive_applyCaptureOp (CaptureOp.granted inst stream) _ hinv
      | none => exact streamIffActive_applyCaptureOp (CaptureOp.denied inst) _ hinv
    · cases h
  | capture =>
    simp only [handle] at h
    split at h
    · cases h; exact hinv
    · cases h
  | blobReady i file url =>
    simp only [handle] at h
    split at h
    · split at h
      · cases h
        rename_i inst previewUrl _ _
        exact streamIffActive_applyCaptureOp (CaptureOp.snapshot inst previewUrl file url) _ hinv
      · cases h
    · cases h
  | retake =>
    simp only [handle] at h
    split at h
    · cases h; exact hinv
    · cases h
  | setConf k =>
    simp only [handle] at h
    split at h
    · cases h; exact hinv
    · cases h
  | submit =>
    simp only [handle] at h
    split at h
    · cases h
      unfold streamIffActive at hinv ⊢
      unfold handlePredict
      split <;> simpa using hinv
    · cases h
  | predictResolve i outcome =>
    simp only [handle] at h
    split at h
    · cases h
      unfold streamIffActive at hinv ⊢
      cases outcome <;> simpa [handlePredictResume, loadHistoryData, alert] using hinv
    · cases h
  | historyResolve outcome =>
    simp only [handle] at h
    split at h
    · split at h <;> cases h <;> exact hinv
    · cases h
  | newAnalysis =>
    simp only [handle] at h
    split at h
    · cases h; exact hinv
    · cases h
  | hide id =>
    simp only [handle] at h
    split at h
    · cases h; exact hinv
    · cases h
  | selectHistory item =>
    simp only [handle] at h
    split at h
    · cases h; exact hinv
    · cases h
  | closeHistory =>
    simp only [handle] at h
    split at h
    · cases h; exact hinv
    · cases h
  | imageResolve outcome =>
    simp only [handle] at h
    split at h
    · cases h
      unfold streamIffActive at hinv ⊢
      cases outcome <;> simpa [fetchHistoryImageResume, createObjectURL] using hinv
    · cases h

theorem cam_tokenEffect (w : World) : (tokenEffect w).cam = w.cam := by
  unfold tokenEffect
  simp only []
  split <;> simp [loadHistoryData]

theorem cam_selectedHistoryItemEffect (w : World) :
    (selectedHistoryItemEffect w).cam = w.cam := by
  unfold selectedHistoryItemEffect
  split
  · rename_i item _
    by_cases h : truthyStr item.image_filename = true <;>
      simp [fetchHistoryImageData, fetchHistoryImage, h]
  · simp

theorem streamIffActive_commit (old new : World) (h : streamIffActive new) :
    streamIffActive (commit old new) := by
  unfold streamIffActive at h ⊢
  unfold commit
  simp only []
  split_ifs <;>
    simp [unmountDetectionCamera, stopCamera, CameraState.initial,
      cam_selectedHistoryItemEffect, cam_tokenEffect, h]

theorem streamIffActive_step (ev : Event) (w w' : World) (hinv : streamIffActive w)
    (h : step ev w = some w') : streamIffActive w' := by
  unfold step at h
  cases hh : handle ev w with
  | none => simp [hh] at h
  | some w1 =>
    simp only [hh, Option.map_some', Option.some.injEq] at h
    rw [← h]
    exact streamIffActive_commit w w1 (streamIffActive_handle ev w w1 hinv hh)

theorem streamIffActive_mountApp (ls : Storage) (w0 : World) (h : mountApp ls = some w0) :
    streamIffActive w0 := by
  unfold mountApp at h
  split at h
  · cases h
  · cases h
    unfold streamIffActive
    rw [cam_tokenEffect]
    rfl

theorem streamIffActive_runCapture (ops : List CaptureOp) (w : World)
    (h : streamIffActive w) : streamIffActive (runCapture ops w) := by
  induction ops generalizing w with
  | nil => exact h
  | cons op rest ih => exact ih _ (streamIffActive_applyCaptureOp op w h)

/-- C11: in every state of the capture controller reached from its initial state by any
interleaving of `startCamera` (granted or denied), `capturePhoto` (the button and its
callback), retake and `stopCamera`, a stream handle is held exactly when `cameraActive` is
true; the same holds in every page reached from a mount by any sequence of page events. -/
theorem stream_iff_active :
    (∀ (ops : List CaptureOp) (w : World), w.cam = CameraState.initial →
        ((runCapture ops w).cam.cameraStream ≠ none ↔ (runCapture ops w).cam.cameraActive = true))
      ∧ ∀ (ls : Storage) (w0 : World) (evs : List Event) (w : World),
          mountApp ls = some w0 → run evs w0 = some w →
          (w.cam.cameraStream ≠ none ↔ w.cam.cameraActive = true) := by
  have key : ∀ w : World, streamIffActive w →
      (w.cam.cameraStream ≠ none ↔ w.cam.cameraActive = true) := by
    intro w h
    unfold streamIffActive at h
    rw [← h]
    cases w.cam.cameraStream <;> simp
  constructor
  · intro ops w hw
    apply key
    apply streamIffActive_runCapture
    unfold streamIffActive
    rw [hw]
    rfl
  · intro ls w0 evs w hmount hrun
    apply key
    exact run_induction streamIffActive (fun _ => True)
      (fun ev a b _ ha hs => streamIffActive_step ev a b ha hs) evs w0 w
      (fun _ _ => trivial) (streamIffActive_mountApp ls w0 hmount) hrun

theorem stream_iff_active_witness :
    ((runCapture [CaptureOp.start, CaptureOp.granted 0 demoStream, CaptureOp.capture,
          CaptureOp.snapshot 0 none snapshotFile "blob:1", CaptureOp.retake, CaptureOp.stop]
          freshPage).cam.cameraStream ≠ none
        ↔ (runCapture [CaptureOp.start, CaptureOp.granted 0 demoStream, CaptureOp.capture,
          CaptureOp.snapshot 0 none snapshotFile "blob:1", CaptureOp.retake, CaptureOp.stop]
          freshPage).cam.cameraActive = true)
      ∧ (activeCameraPage.cam.cameraStream ≠ none ↔ activeCameraPage.cam.cameraActive = true) :=
  ⟨stream_iff_active.1 _ freshPage rfl,
    stream_iff_active.2 signedInStorage freshPage
      [Event.modeSwitch "camera", Event.mediaResolve 0 (some demoStream)] activeCameraPage
      (by decide) (by decide)⟩

/-! ## Tearing the capture view down -/

theorem handleModeSwitch_upload_stops (w : World) (stream : MediaStream)
    (h : w.cam.cameraStream = some stream) :
    (handleModeSwitch "upload" w).env.stoppedTracks = w.env.stoppedTracks ++ stream.tracks
      ∧ (handleModeSwitch "upload" w).cam.cameraStream = none
      ∧ (handleModeSwitch "upload" w).cam.cameraActive = false := by
  simp [handleModeSwitch, stopCamera, resetDetection, h]

theorem unmountDetectionCamera_stops_nothing (w : World) :
    (unmountDetectionCamera w).env.stoppedTracks = w.env.stoppedTracks := by
  simp [unmountDetectionCamera, stopCamera, CameraState.initial]

/-- C12 (what the code does): with the camera active on `demoStream` (tracks 1 and 2), the
switch to upload mode stops both tracks and leaves no stream handle and `cameraActive` false;
the unmount of `DetectionCamera` (here by a logout) stops no track: its cleanup runs the
`stopCamera` of the first render, whose `cameraStream` is `null`. -/
theorem unmount_leaves_stream_open :
    run [Event.modeSwitch "camera", Event.mediaResolve 0 (some demoStream)] freshPage
        = some activeCameraPage
      ∧ activeCameraPage.cam.cameraStream = some demoStream
      ∧ demoStream.tracks = [1, 2]
      ∧ (step (Event.modeSwitch "upload") activeCameraPage).map
            (fun w => (w.env.stoppedTracks, w.cam.cameraStream, w.cam.cameraActive))
          = some ([1, 2], none, false)
      ∧ (unmountDetectionCamera activeCameraPage).env.stoppedTracks = []
      ∧ (step Event.logout activeCameraPage).map
            (fun w => (w.app.token, w.mount, w.env.stoppedTracks))
          = some (JsVal.null, 1, []) := by
  decide

/-! ## Starting the camera again, and retaking -/

/-- C13: when the camera is already active with a stream handle, `startCamera` makes no
device request and leaves the stream handle and `cameraActive` as they are: it sets
`showCameraPreview` to true, the selected file to `null` and the prediction result to `null`,
and changes nothing else. -/
theorem startCamera_when_active (w : World) (stream : MediaStream)
    (ha : w.cam.cameraActive = true) (hs : w.cam.cameraStream = some stream) :
    startCamera w
        = { w with
            cam := { w.cam with showCameraPreview := true }
            app := { w.app with selectedFile := none, results := none } }
      ∧ (startCamera w).env.mediaRequests = w.env.mediaRequests
      ∧ (startCamera w).pendingMedia = w.pendingMedia
      ∧ (startCamera w).cam.cameraStream = some stream
      ∧ (startCamera w).cam.cameraActive = true
      ∧ (startCamera w).cam.showCameraPreview = true
      ∧ (startCamera w).app.selectedFile = none
      ∧ (startCamera w).app.results = none := by
  have h : startCamera w
      = { w with
          cam := { w.cam with showCameraPreview := true }
          app := { w.app with selectedFile := none, results := none } } := by
    simp [startCamera, resetDetection, ha, hs]
  rw [h]
  exact ⟨rfl, rfl, rfl, hs, ha, rfl, rfl, rfl⟩

theorem startCamera_when_active_witness :
    (startCamera frozenPage).env.mediaRequests = 1
      ∧ (startCamera frozenPage).cam.cameraStream = some demoStream
      ∧ (startCamera frozenPage).app.selectedFile = none :=
  ⟨((startCamera_when_active frozenPage demoStream (by decide) (by decide)).2.1).trans
      (by decide),
    (startCamera_when_active frozenPage demoStream (by decide) (by decide)).2.2.2.1,
    (startCamera_when_active frozenPage demoStream (by decide) (by decide)).2.2.2.2.2.2.1⟩

/-- C14 (as stated, refuted): in the Active-Frozen page `frozenPage` (camera active, preview
frozen, the snapshot selected under the URL `blob:1`) the Retake button sets
`showCameraPreview` to true and nothing else: the selected file is still the snapshot and no
URL has been released. -/
theorem retake_keeps_frozen_image :
    run [Event.modeSwitch "camera", Event.mediaResolve 0 (some demoStream), Event.capture,
          Event.blobReady 0 snapshotFile "blob:1"] freshPage = some frozenPage
      ∧ frozenPage.cam.cameraActive = true
      ∧ frozenPage.cam.showCameraPreview = false
      ∧ frozenPage.app.selectedFile = some snapshotFile
      ∧ frozenPage.app.previewUrl = some "blob:1"
      ∧ frozenPage.env.revoked = []
      ∧ (step Event.retake frozenPage).map
            (fun w => (w.cam.showCameraPreview, w.app.selectedFile, w.app.previewUrl,
              w.env.revoked))
          = some (true, some snapshotFile, some "blob:1", []) := by
  decide

/-- C14 (amended): in every Active-Frozen state the retake action resumes live display:
afterwards `showCameraPreview` is true, the stream handle and `cameraActive` are unchanged,
the preview URL is still held and the retake releases no URL; the next snapshot captures
that URL and its callback releases it; and while the live preview shows the submit button
is disabled.  In capture mode with a session the Retake button is this action. -/
theorem retake_resumes_preview (w : World) (file : File)
    (ha : w.cam.cameraActive = true) (hp : w.cam.showCameraPreview = false)
    (hf : w.app.selectedFile = some file) :
    (retake w).cam.showCameraPreview = true
      ∧ (retake w).cam.cameraStream = w.cam.cameraStream
      ∧ (retake w).cam.cameraActive = true
      ∧ (retake w).app.previewUrl = w.app.previewUrl
      ∧ (retake w).env.revoked = w.env.revoked
      ∧ submitDisabled (retake w).app.selectedFile (retake w).app.loading
          (retake w).cam.showCameraPreview = true
      ∧ (capturePhoto (retake w)).pendingBlobs = w.pendingBlobs ++ [(w.mount, w.app.previewUrl)]
      ∧ (∀ (u : String) (snap : File) (url : String), w.app.previewUrl = some u → u ≠ "" →
          (capturePhotoResume w.mount w.app.previewUrl snap url (retake w)).env.revoked
            = w.env.revoked ++ [u])
      ∧ (w.app.token.truthy = true → w.app.inputMode = "camera" →
          step Event.retake w = some (retake w)) := by
  refine ⟨rfl, rfl, ha, rfl, rfl, ?_, rfl, ?_, ?_⟩
  · simp [submitDisabled, retake]
  · intro u snap url hu hne
    unfold capturePhotoResume
    simp only []
    split_ifs <;> simp [createObjectURL, revokeIfSet, retake, hu, hne]
  · intro ht hm
    simp [step, handle, ht, hm, hp, hf, retake, commit]

theorem retake_resumes_preview_witness :
    (retake frozenPage).cam.showCameraPreview = true
      ∧ (retake frozenPage).cam.cameraStream = some demoStream
      ∧ (capturePhotoResume 0 (some "blob:1") snapshotFile "blob:2" (retake frozenPage)).env.revoked
          = ["blob:1"]
      ∧ step Event.retake frozenPage = some (retake frozenPage) :=
  ⟨(retake_resumes_preview frozenPage snapshotFile (by decide) (by decide) (by decide)).1,
    (retake_resumes_preview frozenPage snapshotFile (by decide) (by decide) (by decide)).2.1,
    (retake_resumes_preview frozenPage snapshotFile (by decide) (by decide)
      (by decide)).2.2.2.2.2.2.2.1 "blob:1" snapshotFile "blob:2" (by decide) (by decide),
    (retake_resumes_preview frozenPage snapshotFile (by decide) (by decide)
      (by decide)).2.2.2.2.2.2.2.2 (by decide) (by decide)⟩

/-! ## The preview slot -/

@[simp] theorem revokeIfSet_created (url : Option String) (w : World) :
    (revokeIfSet url w).env.created = w.env.created := by
  unfold revokeIfSet
  split
  · split <;> rfl
  · rfl

theorem revoked_revokeIfSet_slot (w v : World) (h : SlotInv w) :
    (revokeIfSet w.app.previewUrl v).env.revoked = v.env.revoked ++ slotUrls w := by
  unfold revokeIfSet slotUrls
  cases hp : w.app.previewUrl with
  | none => simp
  | some u =>
    have hne : u ≠ "" := by
      intro hu
      apply h.2.2
      rw [h.1, ← hu]
      simp [slotUrls, hp]
    simp [hne]

theorem slotInv_install (w w' : World) (url : String) (h : SlotInv w)
    (hne : url ≠ "") (hfresh : url ∉ w.env.created)
    (hc : w'.env.created = w.env.created ++ [url])
    (hr : w'.env.revoked = w.env.revoked ++ slotUrls w)
    (hp : w'.app.previewUrl = some url) : SlotInv w' := by
  refine ⟨?_, ?_, ?_⟩
  · rw [hc, hr, h.1]
    simp [slotUrls, hp]
  · rw [hc]
    exact List.Nodup.append h.2.1 (List.nodup_singleton _) (by simpa using hfresh)
  · rw [hc]
    intro hmem
    rcases List.mem_append.mp hmem with hm | hm
    · exact h.2.2 hm
    · have h1 : "" = url := by simpa using hm
      exact hne h1.symm

theorem slotInv_applySlotOp (op : SlotOp) (w w' : World) (h : SlotInv w)
    (hop : applySlotOp op w = some w') : SlotInv w' := by
  cases op with
  | select file url =>
    simp only [applySlotOp] at hop
    split at hop
    · rename_i hg
      cases hop
      apply slotInv_install w _ url h hg.2.1 hg.2.2
      · simp [onFileChange, hg.1, resetDetection, createObjectURL]
      · have := revoked_revokeIfSet_slot w w h
        simpa [onFileChange, hg.1, resetDetection, createObjectURL] using this
      · simp [onFileChange, hg.1, resetDetection]
    · cases hop
  | snapshot file url =>
    simp only [applySlotOp] at hop
    split at hop
    · rename_i hg
      cases hop
      apply slotInv_install w _ url h hg.1 hg.2
      · unfold capturePhotoResume
        simp only []
        split_ifs <;> simp [createObjectURL]
      · have := revoked_revokeIfSet_slot w w h
        unfold capturePhotoResume
        simp only []
        split_ifs <;> simpa [createObjectURL] using this
      · unfold capturePhotoResume
        simp only []
        split_ifs <;> rfl
    · cases hop
  | clear =>
    simp only [applySlotOp, Option.some.injEq] at hop
    subst hop
    have hr := revoked_revokeIfSet_slot w w h
    refine ⟨?_, ?_, ?_⟩
    · have hrev : (handleLogout w).env.revoked = w.env.revoked ++ slotUrls w := by
        simpa [handleLogout] using
          revoked_revokeIfSet_slot w
            { w with
              env := { w.env with localStorage := w.env.localStorage.clear }
              app := { w.app with
                token := .null, username := .null, results := none, selectedFile := none } } h
      have hcr : (handleLogout w).env.created = w.env.created := by
        simp [handleLogout]
      rw [hrev, hcr, h.1]
      simp [slotUrls, handleLogout]
    · have hcr : (handleLogout w).env.created = w.env.created := by
        simp [handleLogout]
      rw [hcr]
      exact h.2.1
    · have hcr : (handleLogout w).env.created = w.env.created := by
        simp [handleLogout]
      rw [hcr]
      exact h.2.2

/-- When each install and each clear runs to its end before the next starts, and the slot
starts with its bookkeeping in order (as in a freshly mounted page), the URLs created are
those released, in order, followed by the one the slot holds: no URL is released twice, at
most one URL that was created is not yet released (the one in the slot), and with the slot
empty the releases are as many as the installs. -/
theorem preview_slot_sequential (ops : List SlotOp) (w0 w : World) (h0 : SlotInv w0)
    (hrun : runSlot ops w0 = some w) :
    w.env.created = w.env.revoked ++ slotUrls w
      ∧ w.env.revoked.Nodup
      ∧ (∀ u ∈ w.env.created, u ∉ w.env.revoked → w.app.previewUrl = some u)
      ∧ (w.app.previewUrl = none → w.env.revoked.length = w.env.created.length) := by
  have hinv : SlotInv w := by
    induction ops generalizing w0 with
    | nil =>
      simp only [runSlot, Option.some.injEq] at hrun
      exact hrun ▸ h0
    | cons op rest ih =>
      simp only [runSlot] at hrun
      cases hs : applySlotOp op w0 with
      | none => simp [hs] at hrun
      | some w1 =>
        simp only [hs] at hrun
        exact ih w1 (slotInv_applySlotOp op w0 w1 h0 hs) hrun
  refine ⟨hinv.1, ?_, ?_, ?_⟩
  · have := hinv.2.1
    rw [hinv.1] at this
    exact (List.nodup_append.mp this).1
  · intro u hu hnr
    rw [hinv.1] at hu
    rcases List.mem_append.mp hu with hm | hm
    · exact absurd hm hnr
    · unfold slotUrls at hm
      cases hp : w.app.previewUrl with
      | none => simp [hp] at hm
      | some v =>
        simp [hp] at hm
        rw [hm]
  · intro hnone
    rw [hinv.1]
    simp [slotUrls, hnone]

theorem slotInv_freshPage : SlotInv freshPage :=
  ⟨rfl, List.nodup_nil, List.not_mem_nil _⟩

theorem preview_slot_sequential_witness :
    ∃ w, runSlot [SlotOp.select scalpFile "blob:1", SlotOp.snapshot snapshotFile "blob:2",
          SlotOp.clear] freshPage = some w
      ∧ w.env.created = w.env.revoked ++ slotUrls w ∧ w.env.revoked.Nodup :=
  ⟨_, rfl,
    (preview_slot_sequential
      [SlotOp.select scalpFile "blob:1", SlotOp.snapshot snapshotFile "blob:2", SlotOp.clear]
      freshPage _ slotInv_freshPage rfl).1,
    (preview_slot_sequential
      [SlotOp.select scalpFile "blob:1", SlotOp.snapshot snapshotFile "blob:2", SlotOp.clear]
      freshPage _ slotInv_freshPage rfl).2.1⟩

/-- C15 (what the code does): two clicks on the snapshot button before the first `toBlob`
callback runs give two callbacks that both captured the `previewUrl` of the click.  From the
freshly started camera the second install releases nothing although the slot holds `blob:1`:
two URLs are live, and after the logout one release stands against two installs.  From the
frozen page, whose slot holds `blob:1`, both callbacks release `blob:1`: it is released
twice, and `blob:2` never. -/
theorem double_snapshot_breaks_slot :
    (run [Event.modeSwitch "camera", Event.mediaResolve 0 (some demoStream), Event.capture,
          Event.capture, Event.blobReady 0 snapshotFile "blob:1",
          Event.blobReady 0 snapshotFile "blob:2"] freshPage).map
          (fun w => (w.app.previewUrl, w.env.created, w.env.revoked))
        = some (some "blob:2", ["blob:1", "blob:2"], [])
      ∧ (run [Event.modeSwitch "camera", Event.mediaResolve 0 (some demoStream), Event.capture,
          Event.capture, Event.blobReady 0 snapshotFile "blob:1",
          Event.blobReady 0 snapshotFile "blob:2", Event.logout] freshPage).map
          (fun w => (w.app.previewUrl, w.env.created, w.env.revoked))
        = some (none, ["blob:1", "blob:2"], ["blob:2"])
      ∧ (run [Event.retake, Event.capture, Event.capture,
          Event.blobReady 0 snapshotFile "blob:2", Event.blobReady 0 snapshotFile "blob:3"]
          frozenPage).map (fun w => (w.app.previewUrl, w.env.created, w.env.revoked))
        = some (some "blob:3", ["blob:1", "blob:2", "blob:3"], ["blob:1", "blob:1"]) := by
  decide

/-! ## A failed prediction -/

theorem localStorage_commit (old new : World) :
    (commit old new).env.localStorage = new.env.localStorage := by
  have ht : ∀ v : World, (tokenEffect v).env.localStorage = v.env.localStorage := by
    intro v
    unfold tokenEffect
    simp only []
    split <;> simp [loadHistoryData]
  have hs : ∀ v : World, (selectedHistoryItemEffect v).env.localStorage = v.env.localStorage := by
    intro v
    unfold selectedHistoryItemEffect
    split
    · rename_i item _
      by_cases h : truthyStr item.image_filename = true <;>
        simp [fetchHistoryImageData, fetchHistoryImage, h]
    · simp
  unfold commit
  simp only []
  split_ifs <;> simp [unmountDetectionCamera, stopCamera, CameraState.initial, ht, hs]

theorem commit_of_unchanged (old new : World) (ht : new.app.token = old.app.token)
    (hs : new.app.selectedHistoryItem = old.app.selectedHistoryItem) : commit old new = new := by
  unfold commit
  simp [ht, hs]

theorem step_predictResolve_error (v : World) (i : Nat) (tok : JsVal) (err : AxiosError)
    (hget : v.pendingPredicts.get? i = some tok) :
    step (Event.predictResolve i (.error err)) v
      = some (handlePredictResume tok (.error err)
          { v with pendingPredicts := v.pendingPredicts.eraseIdx i }) := by
  simp only [step, handle, hget, Option.map_some', Option.some.injEq]
  apply commit_of_unchanged <;> simp [handlePredictResume, alert]

/-- C16: with an image selected, when the prediction request fails `handlePredict` changes
nothing of the `App` state but `loading`, which ends false: the selected file, the preview
URL and the stored prediction result are as before; it shows one alert, the `detail` of the
error response when it is truthy and `Prediction failed` otherwise; the only request it has
sent is the failed prediction, no history load is pending more than before; the submit
button is again disabled only by a live preview, and a new `handlePredict` sends the same
image.  In the page, the failure of an outstanding prediction is such a step whatever
happened in between. -/
theorem handlePredict_failure (w : World) (file : File) (err : AxiosError)
    (hf : w.app.selectedFile = some file) :
    (handlePredictFailed err w).app = { w.app with loading := false }
      ∧ (handlePredictFailed err w).app.selectedFile = some file
      ∧ (handlePredictFailed err w).app.previewUrl = w.app.previewUrl
      ∧ (handlePredictFailed err w).app.results = w.app.results
      ∧ (handlePredictFailed err w).app.loading = false
      ∧ (handlePredictFailed err w).env.alerts
          = w.env.alerts
            ++ [if err.detail.truthy then err.detail else JsVal.str "Prediction failed"]
      ∧ (handlePredictFailed err w).env.requests
          = w.env.requests ++ [Request.predict w.app.conf w.app.token file]
      ∧ (handlePredictFailed err w).pendingHistory = w.pendingHistory
      ∧ (handlePredictFailed err w).cam = w.cam
      ∧ submitDisabled (handlePredictFailed err w).app.selectedFile
          (handlePredictFailed err w).app.loading (handlePredictFailed err w).cam.showCameraPreview
          = w.cam.showCameraPreview
      ∧ (handlePredict (handlePredictFailed err w)).env.requests
          = (handlePredictFailed err w).env.requests
            ++ [Request.predict w.app.conf w.app.token file]
      ∧ ∀ (v : World) (i : Nat) (tok : JsVal), v.pendingPredicts.get? i = some tok →
          ∃ v', step (Event.predictResolve i (.error err)) v = some v'
            ∧ v'.app = { v.app with loading := false }
            ∧ v'.env.requests = v.env.requests
            ∧ v'.pendingHistory = v.pendingHistory
            ∧ v'.env.alerts = v.env.alerts
                ++ [if err.detail.truthy then err.detail else JsVal.str "Prediction failed"] := by
  have happ : (handlePredictFailed err w).app = { w.app with loading := false } := by
    simp [handlePredictFailed, handlePredict, handlePredictResume, alert, hf]
  refine ⟨happ, ?_, ?_, ?_, ?_, ?_, ?_, ?_, ?_, ?_, ?_, ?_⟩
  · rw [happ]; exact hf
  · rw [happ]
  · rw [happ]
  · rw [happ]
  · simp [handlePredictFailed, handlePredict, handlePredictResume, alert, hf, JsVal.or]
  · simp [handlePredictFailed, handlePredict, handlePredictResume, alert, hf]
  · simp [handlePredictFailed, handlePredict, handlePredictResume, alert, hf]
  · simp [handlePredictFailed, handlePredict, handlePredictResume, alert, hf]
  · rw [happ]
    simp [submitDisabled, hf, handlePredictFailed, handlePredict, handlePredictResume, alert]
  · have hsel : (handlePredictFailed err w).app.selectedFile = some file := by rw [happ]; exact hf
    have hconf : (handlePredictFailed err w).app.conf = w.app.conf := by rw [happ]
    have htok : (handlePredictFailed err w).app.token = w.app.token := by rw [happ]
    simp [handlePredict, hsel, hconf, htok]
  · intro v i tok hget
    exact ⟨_, step_predictResolve_error v i tok err hget,
      by simp [handlePredictResume, alert], by simp [handlePredictResume, alert],
      by simp [handlePredictResume, alert], by simp [handlePredictResume, alert, JsVal.or]⟩

theorem handlePredict_failure_witness :
    (handlePredictFailed { response := some (some (JsVal.str "Invalid image")) }
        pageWithPreview).app.selectedFile = some scalpFile
      ∧ (handlePredictFailed { response := some (some (JsVal.str "Invalid image")) }
        pageWithPreview).app.loading = false
      ∧ (handlePredictFailed { response := some (some (JsVal.str "Invalid image")) }
        pageWithPreview).env.alerts = [JsVal.str "Invalid image"]
      ∧ (handlePredictFailed { response := none } pageWithPreview).env.alerts
          = [JsVal.str "Prediction failed"] :=
  ⟨(handlePredict_failure pageWithPreview scalpFile _ (by decide)).2.1,
    (handlePredict_failure pageWithPreview scalpFile _ (by decide)).2.2.2.2.1,
    ((handlePredict_failure pageWithPreview scalpFile
      { response := some (some (JsVal.str "Invalid image")) } (by decide)).2.2.2.2.2.1).trans
      (by decide),
    ((handlePredict_failure pageWithPreview scalpFile { response := none }
      (by decide)).2.2.2.2.2.1).trans (by decide)⟩

/-! ## Reset -/

/-- C17: `resetDetection` of `App` sets the prediction result to `null` and changes nothing
else: the selected file, the preview URL, the input mode, the capture state, the browser and
the outstanding operations are as before, and no effect runs.  Where a mode switch calls it,
the switch itself also clears the selected file: at once for a switch to upload and for a
switch to capture with the camera already active, and in the continuation of `startCamera`
when the device is granted; while the device request is pending and when it is denied the
switch calls no reset and clears nothing.  A file selection calls it and keeps the file. -/
theorem resetDetection_frame (w : World) :
    (resetDetection w).app.results = none
      ∧ (resetDetection w).app.selectedFile = w.app.selectedFile
      ∧ (resetDetection w).app.previewUrl = w.app.previewUrl
      ∧ (resetDetection w).app.inputMode = w.app.inputMode
      ∧ (resetDetection w).cam = w.cam
      ∧ (resetDetection w).env = w.env
      ∧ resetDetection w = { w with app := { w.app with results := none } }
      ∧ commit w (resetDetection w) = resetDetection w
      ∧ ((handleModeSwitch "upload" w).app.selectedFile = none
          ∧ (handleModeSwitch "upload" w).app.results = none)
      ∧ ((w.cam.cameraActive && w.cam.cameraStream.isSome) = true →
          (handleModeSwitch "camera" w).app.selectedFile = none
            ∧ (handleModeSwitch "camera" w).app.results = none)
      ∧ ((w.cam.cameraActive && w.cam.cameraStream.isSome) = false →
          (handleModeSwitch "camera" w).app.selectedFile = w.app.selectedFile
            ∧ (handleModeSwitch "camera" w).app.results = w.app.results)
      ∧ (∀ (inst : Nat) (stream : MediaStream),
          (startCameraResume inst (some stream) w).app.selectedFile = none
            ∧ (startCameraResume inst (some stream) w).app.results = none)
      ∧ (∀ inst : Nat, (startCameraResume inst none w).app = w.app)
      ∧ (∀ (f : File) (url : String), startsWith f.type "image/" = true →
          (onFileChange (some f) url w).app.selectedFile = some f
            ∧ (onFileChange (some f) url w).app.results = none) := by
  refine ⟨rfl, rfl, rfl, rfl, rfl, rfl, rfl, ?_, ?_, ?_, ?_, ?_, ?_, ?_⟩
  · exact commit_of_unchanged _ _ rfl rfl
  · simp [handleModeSwitch, resetDetection]
  · intro h
    simp [handleModeSwitch, startCamera, resetDetection, h]
  · intro h
    simp [handleModeSwitch, startCamera, h]
  · intro inst stream
    unfold startCameraResume
    simp only []
    split_ifs <;> simp [resetDetection]
  · intro inst
    rfl
  · intro f url hf
    simp [onFileChange, hf, resetDetection]

theorem resetDetection_frame_witness :
    (resetDetection pageWithPreview).app.selectedFile = some scalpFile
      ∧ (handleModeSwitch "camera" frozenPage).app.selectedFile = none
      ∧ (handleModeSwitch "camera" pageWithPreview).app.selectedFile = some scalpFile
      ∧ (onFileChange (some scalpFile) "blob:2" pageWithPreview).app.selectedFile
          = some scalpFile :=
  ⟨(resetDetection_frame pageWithPreview).2.1,
    ((resetDetection_frame frozenPage).2.2.2.2.2.2.2.2.2.1 (by decide)).1,
    (((resetDetection_frame pageWithPreview).2.2.2.2.2.2.2.2.2.2.1 (by decide)).1).trans
      (by decide),
    ((resetDetection_frame pageWithPreview).2.2.2.2.2.2.2.2.2.2.2.2.2 scalpFile "blob:2"
      (by decide)).1⟩

/-! ## Logout and local storage -/

/-- C18: whatever local storage held, after `handleLogout` it is empty: `getItem` returns
`null` for every key, `access_token`, `username` and `deleted_history_ids` among them; a
reload then starts from an empty hidden list, and the commit that follows the logout writes
nothing. -/
theorem handleLogout_clears_storage (w : World) :
    (handleLogout w).env.localStorage = []
      ∧ (∀ key : String, (handleLogout w).env.localStorage.getItem key = none)
      ∧ (handleLogout w).env.localStorage.getItem "access_token" = none
      ∧ (handleLogout w).env.localStorage.getItem "username" = none
      ∧ (handleLogout w).env.localStorage.getItem "deleted_history_ids" = none
      ∧ initialDeletedIds (handleLogout w).env.localStorage = some []
      ∧ (step Event.logout w).map (fun v => v.env.localStorage)
          = if w.app.token.truthy then some [] else none := by
  have h : (handleLogout w).env.localStorage = [] := by
    simp [handleLogout, Storage.clear]
  refine ⟨h, ?_, ?_, ?_, ?_, ?_, ?_⟩
  · intro key
    rw [h]
    rfl
  · rw [h]; rfl
  · rw [h]; rfl
  · rw [h]; rfl
  · rw [h]; rfl
  · by_cases ht : w.app.token.truthy = true
    · simp [step, handle, ht, localStorage_commit, h]
    · simp [step, handle, ht]

/-! ## The history image -/

/-- C19: `fetchHistoryImage` throws `Image reference missing for this prediction` without
sending a request when the item has no `image_filename` (so `fetchHistoryImageData` leaves
the requests as they are and shows that message); otherwise it requests
`{apiBase}/uploads/{u}/{image_filename}`, `u` being the username of the item when it has one
and the username of the current user otherwise; and when that request fails it throws
`Unable to retrieve image from server`. -/
theorem fetchHistoryImage_contract (item : HistoryEntry) (username token : JsVal)
    (apiBase : String) (w : World) :
    (truthyStr item.image_filename = false →
        fetchHistoryImage item username token apiBase
            = .error "Image reference missing for this prediction"
          ∧ (fetchHistoryImageData item w).env.requests = w.env.requests
          ∧ (fetchHistoryImageData item w).app.historyImageError
              = some "Image reference missing for this prediction")
      ∧ (∀ fn : String, item.image_filename = some fn → fn ≠ "" →
          ∃ req, fetchHistoryImage item username token apiBase = .ok req
            ∧ uploadUrl req
                = some (apiBase ++ "/uploads/"
                    ++ (if truthyStr item.username then ofNullable item.username
                        else username).toStr
                    ++ "/" ++ fn))
      ∧ (∀ (fn un : String), item.image_filename = some fn → fn ≠ "" →
          item.username = some un → un ≠ "" →
          (fetchHistoryImage item username token apiBase).toOption.bind uploadUrl
            = some (apiBase ++ "/uploads/" ++ un ++ "/" ++ fn))
      ∧ fetchHistoryImageFinish none = .error "Unable to retrieve image from server"
      ∧ (fetchHistoryImageResume none w).app.historyImageError
          = some "Unable to retrieve image from server"
      ∧ ∀ url : String, fetchHistoryImageFinish (some url) = .ok url := by
  refine ⟨?_, ?_, ?_, rfl, rfl, fun _ => rfl⟩
  · intro h
    simp [fetchHistoryImage, fetchHistoryImageData, h]
  · intro fn hfn hne
    have hreq : fetchHistoryImage item username token apiBase
        = .ok (Request.upload apiBase ((ofNullable item.username).or username) fn token) := by
      simp [fetchHistoryImage, truthyStr, hfn, hne]
    refine ⟨_, hreq, ?_⟩
    cases hu : item.username with
    | none => simp [uploadUrl, truthyStr, ofNullable, JsVal.or, JsVal.truthy, hfn]
    | some un =>
      by_cases hun : un = ""
      · simp [uploadUrl, truthyStr, ofNullable, JsVal.or, JsVal.truthy, hfn, hun]
      · simp [uploadUrl, truthyStr, ofNullable, JsVal.or, JsVal.truthy, hfn, hun]
  · intro fn un hfn hne hu hun
    simp [fetchHistoryImage, truthyStr, hfn, hne, hu, hun, uploadUrl, ofNullable, JsVal.or,
      JsVal.truthy, JsVal.toStr, Except.toOption]

theorem fetchHistoryImage_contract_witness :
    fetchHistoryImage { entryWithId "a" with image_filename := none } (JsVal.str "alice")
        (JsVal.str "tok") API_BASE = .error "Image reference missing for this prediction"
      ∧ (fetchHistoryImage { entryWithId "a" with username := some "bob" } (JsVal.str "alice")
          (JsVal.str "tok") API_BASE).toOption.bind uploadUrl
          = some "/api/uploads/bob/scalp.png"
      ∧ ∃ req, fetchHistoryImage (entryWithId "a") (JsVal.str "alice") (JsVal.str "tok") API_BASE
            = .ok req
          ∧ uploadUrl req = some "/api/uploads/alice/scalp.png" :=
  ⟨((fetchHistoryImage_contract { entryWithId "a" with image_filename := none }
      (JsVal.str "alice") (JsVal.str "tok") API_BASE freshPage).1 (by decide)).1,
    ((fetchHistoryImage_contract { entryWithId "a" with username := some "bob" }
      (JsVal.str "alice") (JsVal.str "tok") API_BASE freshPage).2.2.1 "scalp.png" "bob"
      rfl (by decide) rfl (by decide)).trans (by decide),
    ((fetchHistoryImage_contract (entryWithId "a") (JsVal.str "alice") (JsVal.str "tok")
      API_BASE freshPage).2.1 "scalp.png" rfl (by decide)).imp
      fun _ h => ⟨h.1, h.2.trans (by decide)⟩⟩

/-! ## The results view -/

theorem length_detectionRows (idx : Nat) (detections : List Detection) :
    (detectionRows idx detections).length = detections.length := by
  induction detections generalizing idx with
  | nil => rfl
  | cons det rest ih => simp [detectionRows, ih]

theorem detectionRows_get? (detections : List Detection) (idx i : Nat) :
    (detectionRows idx detections).get? i
      = (detections.get? i).map
          (fun det => { key := idx + i, class_name := det.class_name,
                        confidence := det.confidence }) := by
  induction detections generalizing idx i with
  | nil => simp [detectionRows]
  | cons det rest ih =>
    cases i with
    | zero => simp [detectionRows]
    | succ j =>
      simp only [detectionRows, List.get?_cons_succ, ih]
      congr 1
      funext d
      congr 1
      omega

/-- With the detections list present (and the result neither rejected nor without
alopecia) the results view renders one row per detection, in the order of the list: the row
at position `i` has key `i` and shows the class name and the confidence of the detection at
position `i`. -/
theorem renderResults_rows (results : PredictionResult) (detections : List Detection)
    (hs : results.status ≠ "rejected") (hd : results.diagnosis ≠ some "No Alopecia Detected")
    (hdet : results.detections = some detections) :
    ∃ rows, renderResults results = .ok (.detected results.annotated_image rows)
      ∧ rows.length = detections.length
      ∧ ∀ i : Nat, rows.get? i
          = (detections.get? i).map
              (fun det => { key := i, class_name := det.class_name,
                            confidence := det.confidence }) := by
  refine ⟨detectionRows 0 detections, by simp [renderResults, hs, hd, hdet],
    length_detectionRows 0 detections, ?_⟩
  intro i
  rw [detectionRows_get?]
  simp

/-- C20 (what the code does): for the accepted result `resultWithoutDetections`, whose
diagnosis is not `No Alopecia Detected` and whose `detections` is absent, the results view
evaluates `results.detections.map` and throws a `TypeError`; the history detail view guards
the same expression and renders no row for an entry without `detections`. -/
theorem results_view_throws_without_detections :
    resultWithoutDetections.status = "accepted"
      ∧ resultWithoutDetections.diagnosis = some "Alopecia Detected"
      ∧ resultWithoutDetections.detections = none
      ∧ renderResults resultWithoutDetections
          = .error "TypeError: Cannot read properties of undefined (reading 'map')"
      ∧ (entryWithId "a").detections = none
      ∧ renderHistoryDetections (entryWithId "a") = .ok [] := by
  refine ⟨rfl, rfl, rfl, ?_, rfl, rfl⟩
  simp [renderResults, resultWithoutDetections]

/-! ## Logout and the `[token]` effect -/

theorem revoked_revokeIfSet (url : Option String) (w : World) :
    (revokeIfSet url w).env.revoked = w.env.revoked ++ releasedBy url := by
  unfold revokeIfSet releasedBy
  split
  · split <;> simp
  · simp

/-- The whole logout, handler and commit: the session, the result, the file and the preview
URL are cleared, and the releases are those of `handleLogout` (the preview URL) followed by
those of the cleanup of the `[token]` effect (the preview URL and the history image URL that
effect captured when it last ran). -/
theorem step_logout_releases (w : World) (ht : w.app.token.truthy = true) :
    ∃ w', step Event.logout w = some w'
      ∧ w'.app.token = JsVal.null ∧ w'.app.username = JsVal.null
      ∧ w'.app.results = none ∧ w'.app.selectedFile = none ∧ w'.app.previewUrl = none
      ∧ w'.env.revoked
          = w.env.revoked ++ releasedBy w.app.previewUrl ++ releasedBy w.app.effectPreviewUrl
              ++ releasedBy w.app.effectHistoryImageUrl := by
  have hne : ¬ (handleLogout w).app.token = w.app.token := by
    intro h
    have h1 : (handleLogout w).app.token = JsVal.null := by simp [handleLogout]
    rw [h1] at h
    rw [← h] at ht
    cases ht
  have hsel : (handleLogout w).app.selectedHistoryItem = w.app.selectedHistoryItem := by
    simp [handleLogout]
  have hfalsy : (handleLogout w).app.token.truthy = false := by simp [handleLogout, JsVal.truthy]
  have hstep : step Event.logout w = some (commit w (handleLogout w)) := by
    simp only [step, handle, ht, if_true, Option.map_some']
  refine ⟨commit w (handleLogout w), hstep, ?_⟩
  unfold commit
  simp only [hne, if_false]
  have hts : (tokenEffect (handleLogout w)).app.selectedHistoryItem
      = w.app.selectedHistoryItem := by
    unfold tokenEffect
    simp only [hfalsy]
    simp [hsel]
  simp only [hts, if_true, ht, hfalsy]
  simp only [unmountDetectionCamera, stopCamera, CameraState.initial, tokenEffect, hfalsy]
  simp [handleLogout, revoked_revokeIfSet]

/-- C1 (what the code does): a logout changes the token, so the commit that follows
`handleLogout` runs the cleanup of the `[token]` effect, which releases the preview URL that
effect captured when it last ran.  In the ordinary page `pageWithPreview` the effect captured
no URL and `blob:1` is released once.  When a second login response arrives after the user
picked a file, or a snapshot callback runs between a logout and the next login, the effect
has captured `blob:1`: the session, the result, the file and the preview URL are cleared as
claimed, but `blob:1` is released twice, once by `handleLogout` and once by the cleanup. -/
theorem logout_releases_preview_twice :
    (step Event.logout pageWithPreview).map
          (fun w => (w.app.token, w.app.username, w.app.previewUrl, w.env.revoked))
        = some (JsVal.null, JsVal.null, none, ["blob:1"])
      ∧ (run [Event.auth "login" "alice" "secret" (.ok (some (JsVal.str "tok1"))),
            Event.fileChange (some scalpFile) "blob:1",
            Event.auth "login" "alice" "secret" (.ok (some (JsVal.str "tok2")))]
            anonymousPage).map
          (fun w => (w.app.token, w.app.previewUrl, w.app.effectPreviewUrl, w.env.revoked))
        = some (JsVal.str "tok2", some "blob:1", some "blob:1", [])
      ∧ (run [Event.auth "login" "alice" "secret" (.ok (some (JsVal.str "tok1"))),
            Event.fileChange (some scalpFile) "blob:1",
            Event.auth "login" "alice" "secret" (.ok (some (JsVal.str "tok2")))]
            anonymousPage).map (fun w => (handleLogout w).env.revoked)
        = some ["blob:1"]
      ∧ (run [Event.auth "login" "alice" "secret" (.ok (some (JsVal.str "tok1"))),
            Event.fileChange (some scalpFile) "blob:1",
            Event.auth "login" "alice" "secret" (.ok (some (JsVal.str "tok2"))),
            Event.logout] anonymousPage).map
          (fun w => (w.app.token, w.app.username, w.app.selectedFile, w.app.previewUrl))
        = some (JsVal.null, JsVal.null, none, none)
      ∧ (run [Event.auth "login" "alice" "secret" (.ok (some (JsVal.str "tok1"))),
            Event.fileChange (some scalpFile) "blob:1",
            Event.auth "login" "alice" "secret" (.ok (some (JsVal.str "tok2"))),
            Event.logout] anonymousPage).map
          (fun w => (w.app.results.isSome, w.env.created, w.env.revoked))
        = some (false, ["blob:1"], ["blob:1", "blob:1"])
      ∧ (run [Event.capture, Event.logout, Event.blobReady 0 snapshotFile "blob:1",
            Event.auth "login" "alice" "secret" (.ok (some (JsVal.str "tok"))),
            Event.logout] activeCameraPage).map
          (fun w => (w.app.token, w.app.previewUrl, w.env.created, w.env.revoked))
        = some (JsVal.null, none, ["blob:1"], ["blob:1", "blob:1"]) := by
  refine ⟨?_, ?_, ?_, ?_, ?_, ?_⟩ <;> decide

/-! ## JSON texts read -/

/-- What `JSON.parse` reads from some texts: white space and escapes, an escaped surrogate
pair as one character, a trailing comma as a `SyntaxError`, a lone escaped surrogate as a
text outside the model. -/
theorem JSON_parse_examples :
    JSON_parse " [ \"a\" , \"\\u0041\\n\" ] " = some ["a", "A\n"]
      ∧ JSON_parse "[\"\\ud83d\\ude00\"]" = some [String.mk [Char.ofNat 128512]]
      ∧ JSON_parse "[\"a\",]" = none
      ∧ JSON_parse "[\"\\ud83d\"]" = none := by
  decide

end HairLytic
